import Mathlib

/-
Verification development for the pdfplumber-golang content-stream pipeline.

The Go source is shallowly embedded: Go float64 values are modelled as exact
rationals (ℚ), Go machine integers as ℕ/ℤ with explicit wrap-around where the
source can overflow, Go strings as Lean Strings (one Char per byte for the
byte-level routines, which is faithful for the Latin-1 range the relevant code
paths operate on), and Go slices/maps as lists.  Every definition mirrors a
named function of the repository; the file it comes from is given in each doc
comment.
-/

namespace PdfPlumber

/-! ### Go numeric and string helpers -/

/-- Go `math.Round` (round half away from zero), on ℚ. -/
def goRound (q : ℚ) : ℚ :=
  if 0 ≤ q then (⌊q + 1/2⌋ : ℤ) else (⌈q - 1/2⌉ : ℤ)

/-- Go float-to-uint8 conversion `uint8(x)` as used on color components in
`convertPDFColorToColor`: the fractional part is discarded.  (For operands in
the documented range the value is in `[0,255]`; outside that range the Go
conversion is implementation-specific and we take the truncation mod 256.) -/
def goUint8 (q : ℚ) : ℕ := ⌊q⌋.toNat % 256

/-! ### Matrix (src/pkg/pdf/content_stream_parser.go, lines 72-75 and 1642-1661) -/

/-- `Matrix` from content_stream_parser.go: 6 float64 coefficients. -/
structure Matrix where
  A : ℚ
  B : ℚ
  C : ℚ
  D : ℚ
  E : ℚ
  F : ℚ
deriving DecidableEq

/-- `IdentityMatrix` from content_stream_parser.go. -/
def IdentityMatrix : Matrix := ⟨1, 0, 0, 1, 0, 0⟩

/-- `TranslationMatrix` from content_stream_parser.go. -/
def TranslationMatrix (tx ty : ℚ) : Matrix := ⟨1, 0, 0, 1, tx, ty⟩

/-- `MultiplyMatrix` from content_stream_parser.go (identical coefficient
formulas to `Matrix.Multiply` of src/pkg/content/state.go). -/
def MultiplyMatrix (m1 m2 : Matrix) : Matrix :=
  { A := m1.A * m2.A + m1.B * m2.C
    B := m1.A * m2.B + m1.B * m2.D
    C := m1.C * m2.A + m1.D * m2.C
    D := m1.C * m2.B + m1.D * m2.D
    E := m1.E * m2.A + m1.F * m2.C + m2.E
    F := m1.E * m2.B + m1.F * m2.D + m2.F }

/-! ### ToUnicode CMap (src/unnamed/part_009, second document, package pdf) -/

/-- Character class of the regexp escape `\s` used by the CMap block regexes. -/
def reWS (c : Char) : Bool :=
  c = ' ' ∨ c = '\t' ∨ c = '\n' ∨ c = '\r' ∨ c = '\x0b' ∨ c = '\x0c'

/-- Character class `[0-9]` (regexp `\d`). -/
def isDigitC (c : Char) : Bool := '0' ≤ c ∧ c ≤ '9'

/-- Character class `[0-9A-Fa-f]` of the CMap regexes. -/
def isHexDigitC (c : Char) : Bool :=
  ('0' ≤ c ∧ c ≤ '9') ∨ ('A' ≤ c ∧ c ≤ 'F') ∨ ('a' ≤ c ∧ c ≤ 'f')

/-- Numeric value of a hex digit. -/
def hexVal (c : Char) : ℕ :=
  if '0' ≤ c ∧ c ≤ '9' then c.toNat - '0'.toNat
  else if 'a' ≤ c ∧ c ≤ 'f' then c.toNat - 'a'.toNat + 10
  else if 'A' ≤ c ∧ c ≤ 'F' then c.toNat - 'A'.toNat + 10
  else 0

/-- Split a list at the longest prefix satisfying `p`. -/
def spanP (p : Char → Bool) (l : List Char) : List Char × List Char :=
  (l.takeWhile p, l.dropWhile p)

/-- Match a literal string at the head of the input, returning the remainder. -/
def matchLit : List Char → List Char → Option (List Char)
  | [], l => some l
  | _ :: _, [] => none
  | c :: cs, x :: xs => if c = x then matchLit cs xs else none

/-- Go `encoding/hex.DecodeString` on an all-hex-digit input: fails on odd
length, otherwise turns each digit pair into one byte. -/
def hexDecode : List Char → Option (List ℕ)
  | [] => some []
  | [_] => none
  | a :: b :: rest =>
    match hexDecode rest with
    | some bs => some ((hexVal a * 16 + hexVal b) :: bs)
    | none => none

/-- Decoding of a byte sequence as UTF-8 the way a Go `string([]byte)`
conversion followed by a rune iteration sees it: well-formed sequences decode
to their code point, every byte of an ill-formed sequence becomes U+FFFD.
Only the `len(data) == 3` / `len(data) >= 5` fallback of `bytesToUnicode`
reaches this. -/
def utf8Decode : ℕ → List ℕ → List Char
  | 0, _ => []
  | _, [] => []
  | fuel + 1, b :: rest =>
    let cont : ℕ → Bool := fun x => 0x80 ≤ x ∧ x ≤ 0xBF
    let bad : List Char := [Char.ofNat 0xFFFD]
    if b < 0x80 then Char.ofNat b :: utf8Decode fuel rest
    else if 0xC2 ≤ b ∧ b ≤ 0xDF then
      match rest with
      | b2 :: r2 =>
        if cont b2 then Char.ofNat ((b % 0x20) * 64 + b2 % 64) :: utf8Decode fuel r2
        else bad ++ utf8Decode fuel rest
      | [] => bad
    else if 0xE0 ≤ b ∧ b ≤ 0xEF then
      match rest with
      | b2 :: b3 :: r3 =>
        let okB2 : Bool :=
          if b = 0xE0 then 0xA0 ≤ b2 ∧ b2 ≤ 0xBF
          else if b = 0xED then 0x80 ≤ b2 ∧ b2 ≤ 0x9F
          else cont b2
        if okB2 ∧ cont b3 then
          Char.ofNat ((b % 0x10) * 4096 + (b2 % 64) * 64 + b3 % 64) :: utf8Decode fuel r3
        else bad ++ utf8Decode fuel rest
      | _ => bad ++ utf8Decode fuel rest
    else if 0xF0 ≤ b ∧ b ≤ 0xF4 then
      match rest with
      | b2 :: b3 :: b4 :: r4 =>
        let okB2 : Bool :=
          if b = 0xF0 then 0x90 ≤ b2 ∧ b2 ≤ 0xBF
          else if b = 0xF4 then 0x80 ≤ b2 ∧ b2 ≤ 0x8F
          else cont b2
        if okB2 ∧ cont b3 ∧ cont b4 then
          Char.ofNat ((b % 8) * 262144 + (b2 % 64) * 4096 + (b3 % 64) * 64 + b4 % 64) ::
            utf8Decode fuel r4
        else bad ++ utf8Decode fuel rest
      | _ => bad ++ utf8Decode fuel rest
    else bad ++ utf8Decode fuel rest

/-- Go `string(rune(n))`: the character for a valid code point, U+FFFD for a
surrogate or out-of-range value. -/
def goRuneToString (n : ℕ) : String :=
  if n < 0xD800 ∨ (0xE000 ≤ n ∧ n < 0x110000) then String.singleton (Char.ofNat n)
  else String.singleton (Char.ofNat 0xFFFD)

/-- `cmapRange` from part_009: one `beginbfrange` record. -/
structure CmapRange where
  startCID : ℕ
  endCID : ℕ
  startUnicode : ℕ
  unicodeArray : List String
deriving DecidableEq

/-- `ToUnicodeCMap` from part_009.  The Go `map[uint16]string` is modelled as
a key-unique association list (insert overwrites, lookup finds the entry). -/
structure ToUnicodeCMap where
  cidToUnicode : List (ℕ × String)
  ranges : List CmapRange
deriving DecidableEq

/-- `NewToUnicodeCMap` from part_009. -/
def NewToUnicodeCMap : ToUnicodeCMap := ⟨[], []⟩

/-- Go map assignment `m[k] = v` (overwrites any previous binding of `k`). -/
def mapAssign (m : List (ℕ × String)) (k : ℕ) (v : String) : List (ℕ × String) :=
  (k, v) :: m.filter (fun p => p.1 ≠ k)

/-- `bytesToUnicode` from part_009: destination-byte decoding by length. -/
def bytesToUnicode (data : List ℕ) : String :=
  if data.length = 0 then ""
  else if data.length = 1 then goRuneToString (data.headI)
  else if data.length = 2 then
    goRuneToString (data.headI * 256 + (data.getD 1 0))
  else if data.length = 4 then
    let high := data.headI * 256 + data.getD 1 0
    let low := data.getD 2 0 * 256 + data.getD 3 0
    if 0xD800 ≤ high ∧ high ≤ 0xDBFF ∧ 0xDC00 ≤ low ∧ low ≤ 0xDFFF then
      goRuneToString (0x10000 + (high % 0x400) * 0x400 + low % 0x400)
    else
      goRuneToString (data.headI * 16777216 + data.getD 1 0 * 65536 +
        data.getD 2 0 * 256 + data.getD 3 0)
  else
    String.mk (utf8Decode (data.length + 1) data)

/-- Range-lookup loop of `MapCIDToUnicode` (part_009): first range containing
the CID wins; an array record whose index is out of bounds falls through. -/
def mapRangesLookup : List CmapRange → ℕ → String × Bool
  | [], _ => ("", false)
  | r :: rs, cid =>
    if r.startCID ≤ cid ∧ cid ≤ r.endCID then
      if 0 < r.unicodeArray.length then
        match r.unicodeArray.get? (cid - r.startCID) with
        | some u => (u, true)
        | none => mapRangesLookup rs cid
      else
        ((goRuneToString ((r.startUnicode + (cid - r.startCID)) % 65536)), true)
    else mapRangesLookup rs cid

/-- `MapCIDToUnicode` from part_009: direct table first, then the ranges in
insertion order. -/
def MapCIDToUnicode (cmap : ToUnicodeCMap) (cid : ℕ) : String × Bool :=
  match cmap.cidToUnicode.lookup cid with
  | some u => (u, true)
  | none => mapRangesLookup cmap.ranges cid

/-- `<hex+>` token of the CMap regexes: returns the digits and the remainder. -/
def hexToken : List Char → Option (List Char × List Char)
  | '<' :: rest =>
    let s := spanP isHexDigitC rest
    if s.1.isEmpty then none
    else
      match s.2 with
      | '>' :: r2 => some (s.1, r2)
      | _ => none
  | _ => none

/-- One-or-more `<src> <dst>` pairs, each followed by `\s*`, as captured by the
body group of the `beginbfchar` regex. -/
def bfcharPairs : ℕ → List Char → List (List Char × List Char) × List Char
  | 0, l => ([], l)
  | fuel + 1, l =>
    match hexToken l with
    | none => ([], l)
    | some (h1, r1) =>
      match hexToken (spanP reWS r1).2 with
      | none => ([], l)
      | some (h2, r2) =>
        let next := bfcharPairs fuel (spanP reWS r2).2
        ((h1, h2) :: next.1, next.2)

/-- Attempt to match `(\d+)\s+beginbfchar\s*((?:<hex>\s*<hex>\s*)+)endbfchar`
at the head of the input; on success returns the captured pairs and the
remainder after the match. -/
def matchBFCharAt (l : List Char) : Option (List (List Char × List Char) × List Char) :=
  let d := spanP isDigitC l
  if d.1.isEmpty then none
  else
    let w := spanP reWS d.2
    if w.1.isEmpty then none
    else
      match matchLit "beginbfchar".toList w.2 with
      | none => none
      | some afterKw =>
        let body := (spanP reWS afterKw).2
        let pairs := bfcharPairs (body.length + 1) body
        if pairs.1.isEmpty then none
        else
          match matchLit "endbfchar".toList pairs.2 with
          | none => none
          | some rem => some (pairs.1, rem)

/-- All non-overlapping matches of the `beginbfchar` regex, scanning left to
right as `FindAllStringSubmatch` does. -/
def scanBFChar : ℕ → List Char → List (List (List Char × List Char))
  | 0, _ => []
  | _, [] => []
  | fuel + 1, l =>
    match matchBFCharAt l with
    | some (ps, rem) => ps :: scanBFChar fuel rem
    | none => scanBFChar fuel l.tail

/-- Store one `bfchar` mapping as the inner loop of `parseBeginBFChar` does;
malformed hex (odd digit count) is skipped. -/
def addBFCharMapping (cmap : ToUnicodeCMap) (p : List Char × List Char) : ToUnicodeCMap :=
  match hexDecode p.1 with
  | none => cmap
  | some srcBytes =>
    let srcCID? : Option ℕ :=
      if srcBytes.length = 1 then some srcBytes.headI
      else if 2 ≤ srcBytes.length then some (srcBytes.headI * 256 + srcBytes.getD 1 0)
      else none
    match srcCID? with
    | none => cmap
    | some srcCID =>
      match hexDecode p.2 with
      | none => cmap
      | some dstBytes =>
        { cmap with cidToUnicode := mapAssign cmap.cidToUnicode srcCID (bytesToUnicode dstBytes) }

/-- `parseBeginBFChar` from part_009. -/
def parseBeginBFChar (cmap : ToUnicodeCMap) (content : List Char) : ToUnicodeCMap :=
  (scanBFChar (content.length + 1) content).foldl
    (fun acc block => block.foldl addBFCharMapping acc) cmap

/-- Destination operand of one `bfrange` record: either `<hex>` (inl) or a
bracketed array `[...]` (inr, holding the bracket body). -/
def bfrangeDst : List Char → Option ((List Char ⊕ List Char) × List Char)
  | '[' :: rest =>
    let s := spanP (fun c => c ≠ ']') rest
    if s.1.isEmpty then none
    else
      match s.2 with
      | ']' :: r2 => some (Sum.inr s.1, r2)
      | _ => none
  | l =>
    match hexToken l with
    | some (h, r) => some (Sum.inl h, r)
    | none => none

/-- One-or-more `<start> <end> dst` triples, each followed by `\s*`, as
captured by the body group of the `beginbfrange` regex. -/
def bfrangeTriples :
    ℕ → List Char → List (List Char × List Char × (List Char ⊕ List Char)) × List Char
  | 0, l => ([], l)
  | fuel + 1, l =>
    match hexToken l with
    | none => ([], l)
    | some (h1, r1) =>
      match hexToken (spanP reWS r1).2 with
      | none => ([], l)
      | some (h2, r2) =>
        match bfrangeDst (spanP reWS r2).2 with
        | none => ([], l)
        | some (dst, r3) =>
          let next := bfrangeTriples fuel (spanP reWS r3).2
          ((h1, h2, dst) :: next.1, next.2)

/-- Attempt to match the `beginbfrange` regex at the head of the input. -/
def matchBFRangeAt (l : List Char) :
    Option (List (List Char × List Char × (List Char ⊕ List Char)) × List Char) :=
  let d := spanP isDigitC l
  if d.1.isEmpty then none
  else
    let w := spanP reWS d.2
    if w.1.isEmpty then none
    else
      match matchLit "beginbfrange".toList w.2 with
      | none => none
      | some afterKw =>
        let body := (spanP reWS afterKw).2
        let triples := bfrangeTriples (body.length + 1) body
        if triples.1.isEmpty then none
        else
          match matchLit "endbfrange".toList triples.2 with
          | none => none
          | some rem => some (triples.1, rem)

/-- All non-overlapping matches of the `beginbfrange` regex. -/
def scanBFRange :
    ℕ → List Char → List (List (List Char × List Char × (List Char ⊕ List Char)))
  | 0, _ => []
  | _, [] => []
  | fuel + 1, l =>
    match matchBFRangeAt l with
    | some (ts, rem) => ts :: scanBFRange fuel rem
    | none => scanBFRange fuel l.tail

/-- CID value of a decoded hex operand, as computed in `parseBeginBFRange`
(`var startCID uint16` stays 0 when no branch assigns it). -/
def cidOfBytes (bs : List ℕ) : ℕ :=
  if bs.length = 1 then bs.headI
  else if 2 ≤ bs.length then bs.headI * 256 + bs.getD 1 0
  else 0

/-- Store one `bfrange` record as the inner loop of `parseBeginBFRange` does;
the array destination form is skipped (TODO in the source). -/
def addBFRangeMapping (cmap : ToUnicodeCMap)
    (t : List Char × List Char × (List Char ⊕ List Char)) : ToUnicodeCMap :=
  match hexDecode t.1 with
  | none => cmap
  | some startBytes =>
    match hexDecode t.2.1 with
    | none => cmap
    | some endBytes =>
      match t.2.2 with
      | Sum.inl dstHex =>
        match hexDecode dstHex with
        | none => cmap
        | some dstBytes =>
          { cmap with ranges := cmap.ranges ++
              [{ startCID := cidOfBytes startBytes, endCID := cidOfBytes endBytes
                 startUnicode := cidOfBytes dstBytes, unicodeArray := [] }] }
      | Sum.inr _ => cmap

/-- `parseBeginBFRange` from part_009. -/
def parseBeginBFRange (cmap : ToUnicodeCMap) (content : List Char) : ToUnicodeCMap :=
  (scanBFRange (content.length + 1) content).foldl
    (fun acc block => block.foldl addBFRangeMapping acc) cmap

/-- `Parse` of `ToUnicodeCMap` from part_009: `beginbfchar` blocks first, then
`beginbfrange` blocks (neither sub-parser ever reports an error). -/
def cmapParse (data : String) : ToUnicodeCMap :=
  parseBeginBFRange (parseBeginBFChar NewToUnicodeCMap data.toList) data.toList

/-! ### Output object model (src/unnamed/part_010, package pdf types) -/

/-- `Color` from part_010 (uint8 components). -/
structure Color where
  R : ℕ
  G : ℕ
  B : ℕ
  A : ℕ
deriving DecidableEq

/-- `Point` from part_010 (also standing for the structurally identical
`PDFPoint` of content_stream_parser.go). -/
structure Point where
  X : ℚ
  Y : ℚ
deriving DecidableEq

/-- `TransformMatrix` from part_010 (zero-valued on every `CharObject` this
parser creates). -/
structure TransformMatrix where
  A : ℚ
  B : ℚ
  C : ℚ
  D : ℚ
  E : ℚ
  F : ℚ
deriving DecidableEq

/-- Zero value of `TransformMatrix`. -/
def TransformMatrix.zero : TransformMatrix := ⟨0, 0, 0, 0, 0, 0⟩

/-- `CharObject` from part_010 (the `Color` and `Matrix` fields are spelled
`ColorV`/`MatrixV` to avoid clashing with their own type names; the parser
always leaves them zero-valued). -/
structure CharObject where
  Text : String
  Font : String
  FontSize : ℚ
  X0 : ℚ
  Y0 : ℚ
  X1 : ℚ
  Y1 : ℚ
  Width : ℚ
  Height : ℚ
  ColorV : Color
  MatrixV : TransformMatrix
deriving DecidableEq

/-- `BoundingBox` from part_010. -/
structure BoundingBox where
  X0 : ℚ
  Y0 : ℚ
  X1 : ℚ
  Y1 : ℚ
deriving DecidableEq

/-- `CharObject.GetBBox` from part_010. -/
def CharObject.GetBBox (c : CharObject) : BoundingBox :=
  ⟨c.X0, c.Y0, c.X1, c.Y1⟩

/-- `LineObject` from part_010. -/
structure LineObject where
  X0 : ℚ
  Y0 : ℚ
  X1 : ℚ
  Y1 : ℚ
  Width : ℚ
  StrokeColor : Color
  NonStroking : Bool
deriving DecidableEq

/-- `RectObject` from part_010. -/
structure RectObject where
  X0 : ℚ
  Y0 : ℚ
  X1 : ℚ
  Y1 : ℚ
  Width : ℚ
  StrokeColor : Color
  FillColor : Color
  NonStroking : Bool
deriving DecidableEq

/-- `CurveObject` from part_010. -/
structure CurveObject where
  Points : List Point
  StrokeColor : Color
  FillColor : Color
  Width : ℚ
deriving DecidableEq

/-- `Objects` from part_010 (the `Images`/`Annos` collections are never
touched by the content-stream interpreter and are omitted). -/
structure Objects where
  Chars : List CharObject
  Lines : List LineObject
  Rects : List RectObject
  Curves : List CurveObject
deriving DecidableEq

/-- The empty `Objects{}` collection. -/
def Objects.empty : Objects := ⟨[], [], [], []⟩

/-- `Table` from part_010. -/
structure Table where
  Rows : List (List String)
  BBox : BoundingBox
deriving DecidableEq

/-! ### Interpreter state (src/pkg/pdf/content_stream_parser.go, lines 13-126) -/

/-- `PDFColor` from content_stream_parser.go. -/
structure PDFColor where
  R : ℚ
  G : ℚ
  B : ℚ
  ColorSpace : String
deriving DecidableEq

/-- `GraphicsState` from content_stream_parser.go (lines 36-47): note that it
holds no text-related field. -/
structure GraphicsState where
  CTM : Matrix
  StrokeColor : PDFColor
  FillColor : PDFColor
  LineWidth : ℚ
  LineCap : ℤ
  LineJoin : ℤ
  MiterLimit : ℚ
  DashPattern : List ℚ
  DashPhase : ℚ
deriving DecidableEq

/-- `FontInfo` from content_stream_parser.go (lines 62-70). -/
structure FontInfo where
  Name : String
  BaseFont : String
  Encoding : String
  IsVertical : Bool
  SpaceWidth : ℚ
  FontMatrix : Matrix
  ToUnicodeCMap : Option ToUnicodeCMap
deriving DecidableEq

/-- `TextState` from content_stream_parser.go (lines 49-59). -/
structure TextState where
  Font : Option FontInfo
  FontSize : ℚ
  CharSpace : ℚ
  WordSpace : ℚ
  Scale : ℚ
  Leading : ℚ
  Rise : ℚ
  RenderMode : ℤ
deriving DecidableEq

/-- `PathElement` from content_stream_parser.go (`Type` is a Lean keyword, so
the tag field is called `etype`). -/
structure PathElement where
  etype : String
  Points : List Point
deriving DecidableEq

/-- `ContentStreamParser` from content_stream_parser.go.  The Go
`map[string]*FontInfo` resource table is a key-unique association list; the
document-provider fields (`ctx`, `pageDict`, `resources`) are out of scope and
the font table is taken as given, as `NewContentStreamParser` builds it before
any interpretation starts. -/
structure ContentStreamParser where
  graphicsState : GraphicsState
  stateStack : List GraphicsState
  textState : TextState
  textMatrix : Matrix
  lineMatrix : Matrix
  currentPath : List PathElement
  fonts : List (String × FontInfo)
  objects : Objects
deriving DecidableEq

/-- `NewContentStreamParser` from content_stream_parser.go (lines 95-126),
with the already-extracted font table supplied directly. -/
def initParser (fonts : List (String × FontInfo)) : ContentStreamParser :=
  { graphicsState :=
      { CTM := IdentityMatrix
        StrokeColor := ⟨0, 0, 0, "Gray"⟩
        FillColor := ⟨0, 0, 0, "Gray"⟩
        LineWidth := 1
        LineCap := 0
        LineJoin := 0
        MiterLimit := 10
        DashPattern := []
        DashPhase := 0 }
    stateStack := []
    textState :=
      { Font := none, FontSize := 12, CharSpace := 0, WordSpace := 0
        Scale := 100, Leading := 0, Rise := 0, RenderMode := 0 }
    textMatrix := IdentityMatrix
    lineMatrix := IdentityMatrix
    currentPath := []
    fonts := fonts
    objects := Objects.empty }

/-! ### Numeric literal parsing (`parseFloat`/`parseInt`, utility functions of
content_stream_parser.go; Go returns the zero value when `strconv` errors) -/

/-- Decimal digits to a natural number. -/
def digitsToNat (l : List Char) : ℕ :=
  l.foldl (fun n c => n * 10 + (c.toNat - '0'.toNat)) 0

/-- Exponent suffix `[eE][+-]?digits` of a float literal, applied to the
mantissa; `none` when the remaining text is not a well-formed suffix. -/
def parseExpSuffix (m : ℚ) : List Char → Option ℚ
  | [] => some m
  | e :: r =>
    if e = 'e' ∨ e = 'E' then
      let s : ℤ × List Char :=
        match r with
        | '+' :: r2 => (1, r2)
        | '-' :: r2 => (-1, r2)
        | r2 => (1, r2)
      let d := spanP isDigitC s.2
      if d.1.isEmpty ∨ ¬ d.2.isEmpty then none
      else some (m * (10 : ℚ) ^ (s.1 * digitsToNat d.1))
    else none

/-- Core of Go `strconv.ParseFloat` for finite decimal literals
(`[+-]? (digits [. digits?] | . digits) ([eE][+-]?digits)?`); hexadecimal
floats, infinities and NaN have no ℚ counterpart and yield `none` (the
content streams under consideration never contain them). -/
def parseFloatCore (l : List Char) : Option ℚ :=
  let s : ℚ × List Char :=
    match l with
    | '+' :: r => (1, r)
    | '-' :: r => (-1, r)
    | r => (1, r)
  let ip := spanP isDigitC s.2
  match ip.2 with
  | '.' :: r3 =>
    let fp := spanP isDigitC r3
    if ip.1.isEmpty ∧ fp.1.isEmpty then none
    else
      parseExpSuffix
        (s.1 * ((digitsToNat ip.1 : ℚ) + (digitsToNat fp.1 : ℚ) / (10 : ℚ) ^ fp.1.length))
        fp.2
  | rest =>
    if ip.1.isEmpty then none
    else parseExpSuffix (s.1 * (digitsToNat ip.1 : ℚ)) rest

/-- `parseFloat` from content_stream_parser.go: `strconv.ParseFloat` with the
error discarded, so malformed text becomes 0. -/
def parseFloat (s : String) : ℚ := (parseFloatCore s.toList).getD 0

/-- `parseInt` from content_stream_parser.go: `strconv.Atoi` with the error
discarded, so malformed text becomes 0. -/
def parseIntGo (s : String) : ℤ :=
  let x : ℤ × List Char :=
    match s.toList with
    | '+' :: r => (1, r)
    | '-' :: r => (-1, r)
    | r => (1, r)
  let d := spanP isDigitC x.2
  if d.1.isEmpty ∨ ¬ d.2.isEmpty then 0 else x.1 * digitsToNat d.1

/-! ### Tokenizer (content_stream_parser.go, lines 288-474) -/

/-- `isWhitespace` from content_stream_parser.go. -/
def isWhitespaceG (c : Char) : Bool :=
  c = ' ' ∨ c = '\t' ∨ c = '\n' ∨ c = '\r' ∨ c = '\x0c' ∨ c = '\x00'

/-- `isDelimiter` from content_stream_parser.go. -/
def isDelimiterG (c : Char) : Bool :=
  c = '(' ∨ c = ')' ∨ c = '<' ∨ c = '>' ∨ c = '[' ∨ c = ']' ∨
  c = '\x7b' ∨ c = '\x7d' ∨ c = '/' ∨ c = '%'

/-- `readStringLiteral` from content_stream_parser.go: collects the literal
body tracking parenthesis depth; a backslash copies itself and the following
byte verbatim (a trailing backslash copies a zero byte, as the failed
`ReadByte` leaves `next == 0`).  Returns body and remainder. -/
def readStringLiteralT : List Char → ℕ → List Char × List Char
  | [], _ => ([], [])
  | ['\\'], _ => (['\\', '\x00'], [])
  | '\\' :: n :: rest2, depth =>
    let r := readStringLiteralT rest2 depth
    ('\\' :: n :: r.1, r.2)
  | '(' :: rest, depth =>
    let r := readStringLiteralT rest (depth + 1)
    ('(' :: r.1, r.2)
  | ')' :: rest, depth =>
    if depth = 1 then ([], rest)
    else
      let r := readStringLiteralT rest (depth - 1)
      (')' :: r.1, r.2)
  | c :: rest, depth =>
    let r := readStringLiteralT rest depth
    (c :: r.1, r.2)

/-- `readHexString` from content_stream_parser.go: collects non-whitespace
bytes up to the closing `>`. -/
def readHexStringT : List Char → List Char × List Char
  | [] => ([], [])
  | c :: rest =>
    if c = '>' then ([], rest)
    else
      let r := readHexStringT rest
      (if isWhitespaceG c then r.1 else c :: r.1, r.2)

/-- `readName`/`readToken` from content_stream_parser.go: the longest run of
non-delimiter, non-whitespace bytes. -/
def readTokenT (l : List Char) : List Char × List Char :=
  spanP (fun c => ¬ (isDelimiterG c ∨ isWhitespaceG c)) l

/-- `skipComment` from content_stream_parser.go. -/
def skipCommentT : List Char → List Char
  | [] => []
  | c :: rest => if c = '\n' ∨ c = '\r' then rest else skipCommentT rest

/-- The token loop of `tokenize` (content_stream_parser.go).  Fuel-indexed:
every well-formed input consumes at least one byte per emitted decision, so
`length + 1` fuel reproduces the Go loop exactly; on a stray `)`/`{`/`}` the
Go loop never terminates and the fuel runs out instead. -/
def tokenizeAux : ℕ → List Char → List String
  | 0, _ => []
  | _, [] => []
  | fuel + 1, b :: rest =>
    if isWhitespaceG b then tokenizeAux fuel rest
    else if b = '(' then
      let r := readStringLiteralT rest 1
      ("(" ++ String.mk r.1 ++ ")") :: tokenizeAux fuel r.2
    else if b = '<' then
      match rest with
      | '<' :: rest2 => "<<" :: tokenizeAux fuel rest2
      | _ =>
        let r := readHexStringT rest
        ("<" ++ String.mk r.1 ++ ">") :: tokenizeAux fuel r.2
    else if b = '>' then
      match rest with
      | '>' :: rest2 => ">>" :: tokenizeAux fuel rest2
      | _ => tokenizeAux fuel rest
    else if b = '[' then "[" :: tokenizeAux fuel rest
    else if b = ']' then "]" :: tokenizeAux fuel rest
    else if b = '/' then
      let r := readTokenT rest
      ("/" ++ String.mk r.1) :: tokenizeAux fuel r.2
    else if b = '%' then tokenizeAux fuel (skipCommentT rest)
    else
      let r := readTokenT (b :: rest)
      if r.1.isEmpty then tokenizeAux fuel (b :: rest)
      else String.mk r.1 :: tokenizeAux fuel r.2

/-- `tokenize` from content_stream_parser.go. -/
def tokenize (content : String) : List String :=
  tokenizeAux (content.length + 1) content.toList

/-- `isOperator` from content_stream_parser.go (lines 476-502): the closed
operator vocabulary. -/
def isOperator (token : String) : Bool :=
  token ∈ ([
    "BT", "ET", "Td", "TD", "Tm", "T*", "Tj", "TJ", "'", "\"",
    "Tc", "Tw", "Tz", "TL", "Tf", "Tr", "Ts",
    "q", "Q", "cm", "w", "J", "j", "M", "d", "ri", "i", "gs",
    "m", "l", "c", "v", "y", "h", "re",
    "S", "s", "f", "F", "f*", "B", "B*", "b", "b*", "n",
    "CS", "cs", "SC", "SCN", "sc", "scn", "G", "g", "RG", "rg", "K", "k",
    "W", "W*", "BX", "EX", "Do", "MP", "DP", "BMC", "BDC", "EMC"] : List String)

/-! ### String operand decoding (content_stream_parser.go, lines 1378-1546) -/

/-- Go `strings.HasPrefix`, at the character level. -/
def goHasPrefix (s pre : String) : Bool := pre.toList.isPrefixOf s.toList

/-- Go `strings.HasSuffix`, at the character level. -/
def goHasSuffix (s suf : String) : Bool := suf.toList.isSuffixOf s.toList

/-- Octal digit test. -/
def isOctalC (c : Char) : Bool := '0' ≤ c ∧ c ≤ '7'

/-- Octal digit value. -/
def octVal (c : Char) : ℕ := c.toNat - '0'.toNat

/-- `unescapeString` from content_stream_parser.go: backslash escapes, with
3-digit octal sequences truncated to a byte (`byte(val)`); a failed escape
writes the backslash itself and reprocesses the following byte. -/
def unescapeFuel : ℕ → List Char → List Char
  | 0, _ => []
  | _, [] => []
  | fuel + 1, '\\' :: c :: d :: e :: rest2 =>
    if c = 'n' then '\n' :: unescapeFuel fuel (d :: e :: rest2)
    else if c = 'r' then '\r' :: unescapeFuel fuel (d :: e :: rest2)
    else if c = 't' then '\t' :: unescapeFuel fuel (d :: e :: rest2)
    else if c = 'b' then '\x08' :: unescapeFuel fuel (d :: e :: rest2)
    else if c = 'f' then '\x0c' :: unescapeFuel fuel (d :: e :: rest2)
    else if c = '(' then '(' :: unescapeFuel fuel (d :: e :: rest2)
    else if c = ')' then ')' :: unescapeFuel fuel (d :: e :: rest2)
    else if c = '\\' then '\\' :: unescapeFuel fuel (d :: e :: rest2)
    else if isOctalC c ∧ isOctalC d ∧ isOctalC e then
      Char.ofNat ((octVal c * 64 + octVal d * 8 + octVal e) % 256) :: unescapeFuel fuel rest2
    else '\\' :: unescapeFuel fuel (c :: d :: e :: rest2)
  | fuel + 1, '\\' :: c :: rest =>
    if c = 'n' then '\n' :: unescapeFuel fuel rest
    else if c = 'r' then '\r' :: unescapeFuel fuel rest
    else if c = 't' then '\t' :: unescapeFuel fuel rest
    else if c = 'b' then '\x08' :: unescapeFuel fuel rest
    else if c = 'f' then '\x0c' :: unescapeFuel fuel rest
    else if c = '(' then '(' :: unescapeFuel fuel rest
    else if c = ')' then ')' :: unescapeFuel fuel rest
    else if c = '\\' then '\\' :: unescapeFuel fuel rest
    else '\\' :: unescapeFuel fuel (c :: rest)
  | fuel + 1, c :: rest => c :: unescapeFuel fuel rest

/-- `unescapeString` body applied with enough fuel: every loop iteration of
the Go code consumes at least one byte, so `length + 1` steps always
complete. -/
def unescapeList (l : List Char) : List Char := unescapeFuel (l.length + 1) l

/-- `decodeHexString` from content_stream_parser.go (hex-string operands):
digit pairs become bytes, an odd trailing digit is zero-padded, pairs that do
not parse are skipped. -/
def decodeHexList : List Char → List Char
  | [] => []
  | [a] => if isHexDigitC a then [Char.ofNat (hexVal a * 16)] else []
  | a :: b :: rest =>
    if isHexDigitC a ∧ isHexDigitC b then
      Char.ofNat (hexVal a * 16 + hexVal b) :: decodeHexList rest
    else decodeHexList rest

/-- The Identity-H/Identity-V loop of `decodeString`: 2 bytes at a time as a
CID, falling back to two 1-byte lookups, and finally to the raw bytes. -/
def decode2ByteLoop (cmap : ToUnicodeCMap) : List Char → List Char
  | [] => []
  | [b] =>
    let r := MapCIDToUnicode cmap b.toNat
    if r.2 then r.1.toList else [b]
  | b1 :: b2 :: rest =>
    let r := MapCIDToUnicode cmap (b1.toNat * 256 + b2.toNat)
    if r.2 then r.1.toList ++ decode2ByteLoop cmap rest
    else
      let r1 := MapCIDToUnicode cmap b1.toNat
      let r2 := MapCIDToUnicode cmap b2.toNat
      (if r1.2 then r1.1.toList else [b1]) ++
        (if r2.2 then r2.1.toList else [b2]) ++ decode2ByteLoop cmap rest

/-- The single-byte loop of `decodeString` for non-Identity encodings. -/
def decode1ByteLoop (cmap : ToUnicodeCMap) : List Char → List Char
  | [] => []
  | b :: rest =>
    let r := MapCIDToUnicode cmap b.toNat
    (if r.2 then r.1.toList else [b]) ++ decode1ByteLoop cmap rest

/-- `decodeString` from content_stream_parser.go. -/
def decodeString (ts : TextState) (str : String) : String :=
  match ts.Font with
  | some font =>
    match font.ToUnicodeCMap with
    | some cmap =>
      if font.Encoding = "Identity-H" ∨ font.Encoding = "Identity-V" then
        String.mk (decode2ByteLoop cmap str.toList)
      else
        String.mk (decode1ByteLoop cmap str.toList)
    | none => str
  | none => str

/-- `extractString` from content_stream_parser.go: literal and hex string
operands, decoded through the current font when one is selected. -/
def extractString (ts : TextState) (str : String) : String :=
  if goHasPrefix str "(" ∧ goHasSuffix str ")" then
    let inner := String.mk ((str.toList.drop 1).dropLast)
    let unescaped := String.mk (unescapeList inner.toList)
    match ts.Font with
    | some _ => decodeString ts unescaped
    | none => unescaped
  else if goHasPrefix str "<" ∧ goHasSuffix str ">" then
    let inner := String.mk ((str.toList.drop 1).dropLast)
    let decoded := String.mk (decodeHexList inner.toList)
    match ts.Font with
    | some _ => decodeString ts decoded
    | none => decoded
  else str

/-! ### TJ array splitting (`parseTextArray`, content_stream_parser.go,
lines 1548-1626) -/

/-- Loop state of `parseTextArray`. -/
structure PTAState where
  elements : List String
  current : List Char
  inString : Bool
  inHexString : Bool
  parenDepth : ℤ
  prev : Option Char
deriving DecidableEq

/-- Flush the pending element if it is non-empty. -/
def ptaFlush (st : PTAState) : PTAState :=
  if st.current.isEmpty then st
  else { st with elements := st.elements ++ [String.mk st.current], current := [] }

/-- One iteration of the `parseTextArray` loop; `next?` is the lookahead byte
used by the negative-number case, `st.prev` the raw previous byte used by the
escape checks. -/
def ptaStep (st : PTAState) (ch : Char) (next? : Option Char) : PTAState :=
  let st' :=
    if ¬ st.inString ∧ ¬ st.inHexString ∧ isWhitespaceG ch then ptaFlush st
    else if ch = '(' ∧ ¬ st.inHexString then
      if ¬ st.inString then
        { st with inString := true, parenDepth := 1, current := st.current ++ ['('] }
      else if st.prev = some '\\' then { st with current := st.current ++ ['('] }
      else { st with parenDepth := st.parenDepth + 1, current := st.current ++ ['('] }
    else if ch = ')' ∧ st.inString ∧ ¬ st.inHexString then
      if st.prev = some '\\' then { st with current := st.current ++ [')'] }
      else
        let st2 := { st with parenDepth := st.parenDepth - 1, current := st.current ++ [')'] }
        if st2.parenDepth = 0 then
          { st2 with inString := false,
                     elements := st2.elements ++ [String.mk st2.current], current := [] }
        else st2
    else if ch = '<' ∧ ¬ st.inString then
      if ¬ st.inHexString then
        { st with inHexString := true, current := st.current ++ ['<'] }
      else st
    else if ch = '>' ∧ st.inHexString then
      { st with inHexString := false,
                elements := st.elements ++ [String.mk (st.current ++ ['>'])], current := [] }
    else if ch = '-' ∧ ¬ st.inString ∧ ¬ st.inHexString then
      match next? with
      | some n => if isDigitC n ∨ n = '.' then { st with current := st.current ++ ['-'] }
                  else ptaFlush st
      | none => ptaFlush st
    else { st with current := st.current ++ [ch] }
  { st' with prev := some ch }

/-- The loop of `parseTextArray`. -/
def ptaGo : List Char → PTAState → PTAState
  | [], st => st
  | ch :: rest, st => ptaGo rest (ptaStep st ch rest.head?)

/-- `parseTextArray` from content_stream_parser.go. -/
def parseTextArray (s : String) : List String :=
  let fin := ptaGo s.toList ⟨[], [], false, false, 0, none⟩
  if fin.current.isEmpty then fin.elements
  else fin.elements ++ [String.mk fin.current]

/-! ### Text showing (content_stream_parser.go, lines 1184-1257) -/

/-- `getCharWidth` from content_stream_parser.go: the fixed character-class
width table. -/
def getCharWidth (char : String) : ℚ :=
  if char = " " then 1/4
  else if char ∈ (["i", "l", "I", "!", ".", ",", ";", ":", "'", "\""] : List String) then 3/10
  else if char ∈ (["m", "M", "W", "w"] : List String) then 4/5
  else 1/2

/-- The per-character body of the `addTextChars` loop. -/
def addTextChar (p : ContentStreamParser) (c : Char) : ContentStreamParser :=
  match p.textState.Font with
  | none => p
  | some font =>
    let charStr := String.singleton c
    let charWidth := getCharWidth charStr * p.textState.FontSize
    let textX := p.textMatrix.E
    let textY := p.textMatrix.F
    let ctm := p.graphicsState.CTM
    let x := ctm.A * textX + ctm.C * textY + ctm.E
    let y := ctm.B * textX + ctm.D * textY + ctm.F
    let char : CharObject :=
      { Text := charStr, Font := font.Name, FontSize := p.textState.FontSize
        X0 := x, Y0 := y, X1 := x + charWidth, Y1 := y + p.textState.FontSize
        Width := charWidth, Height := p.textState.FontSize
        ColorV := ⟨0, 0, 0, 0⟩, MatrixV := TransformMatrix.zero }
    let d0 := charWidth + (if charStr = " " then p.textState.WordSpace else 0) +
      p.textState.CharSpace
    let displacement := d0 * p.textState.Scale / 100
    { p with
        objects := { p.objects with Chars := p.objects.Chars ++ [char] }
        textMatrix := { p.textMatrix with
                          E := p.textMatrix.E + displacement * p.textMatrix.A
                          F := p.textMatrix.F + displacement * p.textMatrix.B } }

/-- `addTextChars` from content_stream_parser.go: emits one `CharObject` per
rune; nothing happens on empty text or when no font is selected. -/
def addTextChars (p : ContentStreamParser) (text : String) : ContentStreamParser :=
  if text = "" then p
  else
    match p.textState.Font with
    | none => p
    | some _ => text.toList.foldl addTextChar p

/-! ### Graphics and path operators (content_stream_parser.go) -/

/-- `transformPoint` from content_stream_parser.go. -/
def transformPoint (gs : GraphicsState) (x y : ℚ) : ℚ × ℚ :=
  (gs.CTM.A * x + gs.CTM.C * y + gs.CTM.E, gs.CTM.B * x + gs.CTM.D * y + gs.CTM.F)

/-- `convertPDFColorToColor` from content_stream_parser.go. -/
def convertPDFColorToColor (c : PDFColor) : Color :=
  ⟨goUint8 (c.R * 255), goUint8 (c.G * 255), goUint8 (c.B * 255), 255⟩

/-- `saveGraphicsState` from content_stream_parser.go (operator `q`): pushes
a copy of the current `GraphicsState` only. -/
def saveGraphicsState (p : ContentStreamParser) : ContentStreamParser :=
  { p with stateStack := p.stateStack ++ [p.graphicsState] }

/-- `restoreGraphicsState` from content_stream_parser.go (operator `Q`): pops
if the stack is non-empty, otherwise does nothing. -/
def restoreGraphicsState (p : ContentStreamParser) : ContentStreamParser :=
  if p.stateStack.isEmpty then p
  else { p with graphicsState := p.stateStack.getLastD p.graphicsState
                stateStack := p.stateStack.dropLast }

/-- `concatenateMatrix` from content_stream_parser.go (operator `cm`). -/
def concatenateMatrix (p : ContentStreamParser) (operands : List String) : ContentStreamParser :=
  if operands.length < 6 then p
  else
    let m : Matrix :=
      ⟨parseFloat (operands.getD 0 ""), parseFloat (operands.getD 1 "")
       , parseFloat (operands.getD 2 ""), parseFloat (operands.getD 3 "")
       , parseFloat (operands.getD 4 ""), parseFloat (operands.getD 5 "")⟩
    { p with graphicsState :=
        { p.graphicsState with CTM := MultiplyMatrix m p.graphicsState.CTM } }

/-- `moveTo` from content_stream_parser.go (operator `m`). -/
def moveTo (p : ContentStreamParser) (operands : List String) : ContentStreamParser :=
  if operands.length < 2 then p
  else { p with currentPath := p.currentPath ++
          [⟨"moveto", [⟨parseFloat (operands.getD 0 ""), parseFloat (operands.getD 1 "")⟩]⟩] }

/-- `lineTo` from content_stream_parser.go (operator `l`). -/
def lineTo (p : ContentStreamParser) (operands : List String) : ContentStreamParser :=
  if operands.length < 2 then p
  else { p with currentPath := p.currentPath ++
          [⟨"lineto", [⟨parseFloat (operands.getD 0 ""), parseFloat (operands.getD 1 "")⟩]⟩] }

/-- `curveTo` from content_stream_parser.go (operator `c`). -/
def curveTo (p : ContentStreamParser) (operands : List String) : ContentStreamParser :=
  if operands.length < 6 then p
  else { p with currentPath := p.currentPath ++
          [⟨"curveto",
            [⟨parseFloat (operands.getD 0 ""), parseFloat (operands.getD 1 "")⟩,
             ⟨parseFloat (operands.getD 2 ""), parseFloat (operands.getD 3 "")⟩,
             ⟨parseFloat (operands.getD 4 ""), parseFloat (operands.getD 5 "")⟩]⟩] }

/-- `curveToV` from content_stream_parser.go (operator `v`). -/
def curveToV (p : ContentStreamParser) (operands : List String) : ContentStreamParser :=
  if operands.length < 4 then p
  else { p with currentPath := p.currentPath ++
          [⟨"curveto",
            [⟨0, 0⟩,
             ⟨parseFloat (operands.getD 0 ""), parseFloat (operands.getD 1 "")⟩,
             ⟨parseFloat (operands.getD 2 ""), parseFloat (operands.getD 3 "")⟩]⟩] }

/-- `curveToY` from content_stream_parser.go (operator `y`). -/
def curveToY (p : ContentStreamParser) (operands : List String) : ContentStreamParser :=
  if operands.length < 4 then p
  else { p with currentPath := p.currentPath ++
          [⟨"curveto",
            [⟨parseFloat (operands.getD 0 ""), parseFloat (operands.getD 1 "")⟩,
             ⟨parseFloat (operands.getD 2 ""), parseFloat (operands.getD 3 "")⟩,
             ⟨parseFloat (operands.getD 2 ""), parseFloat (operands.getD 3 "")⟩]⟩] }

/-- `closePath` from content_stream_parser.go (operator `h`). -/
def closePath (p : ContentStreamParser) : ContentStreamParser :=
  { p with currentPath := p.currentPath ++ [⟨"close", []⟩] }

/-- `rectangle` from content_stream_parser.go (operator `re`). -/
def rectangle (p : ContentStreamParser) (operands : List String) : ContentStreamParser :=
  if operands.length < 4 then p
  else
    let x := parseFloat (operands.getD 0 "")
    let y := parseFloat (operands.getD 1 "")
    let w := parseFloat (operands.getD 2 "")
    let h := parseFloat (operands.getD 3 "")
    { p with currentPath := p.currentPath ++
        [⟨"moveto", [⟨x, y⟩]⟩,
         ⟨"lineto", [⟨x + w, y⟩]⟩,
         ⟨"lineto", [⟨x + w, y + h⟩]⟩,
         ⟨"lineto", [⟨x, y + h⟩]⟩,
         ⟨"close", []⟩] }

/-- `isRectanglePath` from content_stream_parser.go: the purely structural
check — exactly 3 `lineto` elements plus a `close`. -/
def isRectanglePath (path : List PathElement) : Bool :=
  (path.countP (fun e => e.etype = "lineto") = 3) ∧ path.any (fun e => e.etype = "close")

/-- `getPathBounds` from content_stream_parser.go, as
(minX, minY, maxX, maxY). -/
def getPathBounds (path : List PathElement) : ℚ × ℚ × ℚ × ℚ :=
  match path.flatMap (fun e => e.Points) with
  | [] => (0, 0, 0, 0)
  | p0 :: rest =>
    rest.foldl
      (fun acc pt =>
        (min acc.1 pt.X, min acc.2.1 pt.Y, max acc.2.2.1 pt.X, max acc.2.2.2 pt.Y))
      (p0.X, p0.Y, p0.X, p0.Y)

/-- `createFilledPath` from content_stream_parser.go: emits one filled
`RectObject` from the path bounding box when `isRectanglePath` holds; any
other path emits nothing. -/
def createFilledPath (p : ContentStreamParser) : ContentStreamParser :=
  if p.currentPath.length < 3 then p
  else if isRectanglePath p.currentPath then
    let b := getPathBounds p.currentPath
    let t0 := transformPoint p.graphicsState b.1 b.2.1
    let t1 := transformPoint p.graphicsState b.2.2.1 b.2.2.2
    let rect : RectObject :=
      { X0 := min t0.1 t1.1, Y0 := min t0.2 t1.2
        X1 := max t0.1 t1.1, Y1 := max t0.2 t1.2
        Width := 0, StrokeColor := ⟨0, 0, 0, 0⟩
        FillColor := convertPDFColorToColor p.graphicsState.FillColor
        NonStroking := true }
    { p with objects := { p.objects with Rects := p.objects.Rects ++ [rect] } }
  else p

/-- Accumulator of the `createLineFromPath` loop. -/
structure CLFPAcc where
  curX : ℚ
  curY : ℚ
  startX : ℚ
  startY : ℚ
  objects : Objects
deriving DecidableEq

/-- One iteration of the `createLineFromPath` loop. -/
def clfpStep (gs : GraphicsState) (strokeColor : Color) (acc : CLFPAcc)
    (elem : PathElement) : CLFPAcc :=
  if elem.etype = "moveto" then
    match elem.Points.head? with
    | some pt => { acc with curX := pt.X, curY := pt.Y, startX := pt.X, startY := pt.Y }
    | none => acc
  else if elem.etype = "lineto" then
    match elem.Points.head? with
    | some pt =>
      let s := transformPoint gs acc.curX acc.curY
      let e := transformPoint gs pt.X pt.Y
      let line : LineObject :=
        { X0 := s.1, Y0 := s.2, X1 := e.1, Y1 := e.2
          Width := gs.LineWidth, StrokeColor := strokeColor, NonStroking := false }
      { acc with objects := { acc.objects with Lines := acc.objects.Lines ++ [line] }
                 curX := pt.X, curY := pt.Y }
    | none => acc
  else if elem.etype = "close" then
    if acc.curX ≠ acc.startX ∨ acc.curY ≠ acc.startY then
      let s := transformPoint gs acc.curX acc.curY
      let e := transformPoint gs acc.startX acc.startY
      let line : LineObject :=
        { X0 := s.1, Y0 := s.2, X1 := e.1, Y1 := e.2
          Width := gs.LineWidth, StrokeColor := strokeColor, NonStroking := false }
      { acc with objects := { acc.objects with Lines := acc.objects.Lines ++ [line] } }
    else acc
  else if elem.etype = "curveto" then
    if 3 ≤ elem.Points.length then
      let pt2 := elem.Points.getD 2 ⟨0, 0⟩
      let s := transformPoint gs acc.curX acc.curY
      let e := transformPoint gs pt2.X pt2.Y
      let p0 := elem.Points.getD 0 ⟨0, 0⟩
      let p1 := elem.Points.getD 1 ⟨0, 0⟩
      let cp1 := transformPoint gs p0.X p0.Y
      let cp2 := transformPoint gs p1.X p1.Y
      let curve : CurveObject :=
        { Points := [⟨s.1, s.2⟩, ⟨cp1.1, cp1.2⟩, ⟨cp2.1, cp2.2⟩, ⟨e.1, e.2⟩]
          StrokeColor := strokeColor, FillColor := ⟨0, 0, 0, 0⟩, Width := gs.LineWidth }
      { acc with objects := { acc.objects with Curves := acc.objects.Curves ++ [curve] }
                 curX := pt2.X, curY := pt2.Y }
    else acc
  else acc

/-- `createLineFromPath` from content_stream_parser.go. -/
def createLineFromPath (p : ContentStreamParser) : ContentStreamParser :=
  if p.currentPath.length < 2 then p
  else
    let strokeColor := convertPDFColorToColor p.graphicsState.StrokeColor
    let fin := p.currentPath.foldl (clfpStep p.graphicsState strokeColor)
      ⟨0, 0, 0, 0, p.objects⟩
    { p with objects := fin.objects }

/-- `stroke` from content_stream_parser.go (operators `S`/`s`). -/
def stroke (p : ContentStreamParser) : ContentStreamParser :=
  { createLineFromPath p with currentPath := [] }

/-- `fill` from content_stream_parser.go (operators `f`/`F`/`f*`). -/
def fill (p : ContentStreamParser) : ContentStreamParser :=
  { createFilledPath p with currentPath := [] }

/-- `fillAndStroke` from content_stream_parser.go (`B`/`B*`/`b`/`b*`). -/
def fillAndStroke (p : ContentStreamParser) : ContentStreamParser :=
  { createLineFromPath (createFilledPath p) with currentPath := [] }

/-- `endPath` from content_stream_parser.go (operator `n`). -/
def endPath (p : ContentStreamParser) : ContentStreamParser :=
  { p with currentPath := [] }

/-! ### Text object and text state operators (content_stream_parser.go,
lines 625-794) -/

/-- `beginText` (operator `BT`). -/
def beginText (p : ContentStreamParser) : ContentStreamParser :=
  { p with textMatrix := IdentityMatrix, lineMatrix := IdentityMatrix }

/-- `endText` (operator `ET`): nothing happens. -/
def endText (p : ContentStreamParser) : ContentStreamParser := p

/-- `textMoveBy` (operator `Td`). -/
def textMoveBy (p : ContentStreamParser) (operands : List String) : ContentStreamParser :=
  if operands.length < 2 then p
  else
    let tx := parseFloat (operands.getD 0 "")
    let ty := parseFloat (operands.getD 1 "")
    let lm := MultiplyMatrix (TranslationMatrix tx ty) p.lineMatrix
    { p with lineMatrix := lm, textMatrix := lm }

/-- `textMoveByWithLeading` (operator `TD`). -/
def textMoveByWithLeading (p : ContentStreamParser) (operands : List String) :
    ContentStreamParser :=
  if operands.length < 2 then p
  else
    let ty := parseFloat (operands.getD 1 "")
    textMoveBy { p with textState := { p.textState with Leading := -ty } } operands

/-- `setTextMatrix` (operator `Tm`). -/
def setTextMatrix (p : ContentStreamParser) (operands : List String) : ContentStreamParser :=
  if operands.length < 6 then p
  else
    let m : Matrix :=
      ⟨parseFloat (operands.getD 0 ""), parseFloat (operands.getD 1 "")
       , parseFloat (operands.getD 2 ""), parseFloat (operands.getD 3 "")
       , parseFloat (operands.getD 4 ""), parseFloat (operands.getD 5 "")⟩
    { p with textMatrix := m, lineMatrix := m }

/-- Left-pad a digit string with zeros to the given width. -/
def padZeros (s : String) (n : ℕ) : String :=
  String.mk (List.replicate (n - s.length) '0') ++ s

/-- Go `fmt.Sprintf` with verb `%f` (6 fractional digits), on ℚ: round the
scaled value to the nearest integer (ties away from zero) and print it with a
fixed 6-digit fraction.  Go formats the nearest float64 instead; the two
agree on every value the interpreter can feed it here short of double
rounding, and no claim depends on the digits produced. -/
def goSprintfF (q : ℚ) : String :=
  let sign := if q < 0 then "-" else ""
  let m := (goRound (|q| * 1000000)).num.toNat
  sign ++ toString (m / 1000000) ++ "." ++ padZeros (toString (m % 1000000)) 6

/-- `textNextLine` (operator `T*`): re-enters `textMoveBy` through formatted
string operands, exactly as the source does. -/
def textNextLine (p : ContentStreamParser) : ContentStreamParser :=
  textMoveBy p ["0", goSprintfF (-p.textState.Leading)]

/-- `setCharSpace` (operator `Tc`). -/
def setCharSpace (p : ContentStreamParser) (operands : List String) : ContentStreamParser :=
  if operands.length < 1 then p
  else { p with textState := { p.textState with CharSpace := parseFloat (operands.getD 0 "") } }

/-- `setWordSpace` (operator `Tw`). -/
def setWordSpace (p : ContentStreamParser) (operands : List String) : ContentStreamParser :=
  if operands.length < 1 then p
  else { p with textState := { p.textState with WordSpace := parseFloat (operands.getD 0 "") } }

/-- `setHorizontalScale` (operator `Tz`). -/
def setHorizontalScale (p : ContentStreamParser) (operands : List String) :
    ContentStreamParser :=
  if operands.length < 1 then p
  else { p with textState := { p.textState with Scale := parseFloat (operands.getD 0 "") } }

/-- `setTextLeading` (operator `TL`). -/
def setTextLeading (p : ContentStreamParser) (operands : List String) : ContentStreamParser :=
  if operands.length < 1 then p
  else { p with textState := { p.textState with Leading := parseFloat (operands.getD 0 "") } }

/-- `strings.TrimPrefix s "/"`. -/
def trimSlash (s : String) : String :=
  if goHasPrefix s "/" then String.mk (s.toList.drop 1) else s

/-- `setFont` (operator `Tf`): when the resource name is absent from the font
table the current selection is left as it is; the size is always set. -/
def setFont (p : ContentStreamParser) (operands : List String) : ContentStreamParser :=
  if operands.length < 2 then p
  else
    let fontName := trimSlash (operands.getD 0 "")
    let fontSize := parseFloat (operands.getD 1 "")
    let newFont :=
      match p.fonts.lookup fontName with
      | some font => some font
      | none => p.textState.Font
    { p with textState := { p.textState with Font := newFont, FontSize := fontSize } }

/-- `setTextRenderMode` (operator `Tr`). -/
def setTextRenderMode (p : ContentStreamParser) (operands : List String) :
    ContentStreamParser :=
  if operands.length < 1 then p
  else { p with textState := { p.textState with RenderMode := parseIntGo (operands.getD 0 "") } }

/-- `setTextRise` (operator `Ts`). -/
def setTextRise (p : ContentStreamParser) (operands : List String) : ContentStreamParser :=
  if operands.length < 1 then p
  else { p with textState := { p.textState with Rise := parseFloat (operands.getD 0 "") } }

/-- `showText` (operator `Tj`). -/
def showText (p : ContentStreamParser) (operands : List String) : ContentStreamParser :=
  if operands.length < 1 then p
  else addTextChars p (extractString p.textState (operands.getD 0 ""))

/-- Go `strings.Join` with a single-space separator. -/
def joinSpace : List String → String
  | [] => ""
  | [s] => s
  | s :: rest => s ++ " " ++ joinSpace rest

/-- Body of the `showTextArray` element loop: a string or hex element is
shown, anything else is the kerning branch, which shifts `textMatrix.E` by
`value/1000 × fontSize × textMatrix.A` — the horizontal scale plays no part
in it. -/
def tjElementStep (p : ContentStreamParser) (elem : String) : ContentStreamParser :=
  if goHasPrefix elem "(" ∨ goHasPrefix elem "<" then
    addTextChars p (extractString p.textState elem)
  else
    let spacing := parseFloat elem / 1000 * p.textState.FontSize
    { p with textMatrix := { p.textMatrix with E := p.textMatrix.E - spacing * p.textMatrix.A } }

/-- `showTextArray` (operator `TJ`). -/
def showTextArray (p : ContentStreamParser) (operands : List String) : ContentStreamParser :=
  if operands.length < 1 then p
  else
    let arrayStr := joinSpace operands
    if ¬ (goHasPrefix arrayStr "[" ∧ goHasSuffix arrayStr "]") then p
    else
      let inner := String.mk ((arrayStr.toList.drop 1).dropLast)
      (parseTextArray inner).foldl tjElementStep p

/-- `textNextLineShow` (operator `'`). -/
def textNextLineShow (p : ContentStreamParser) (operands : List String) : ContentStreamParser :=
  showText (textNextLine p) operands

/-- `textNextLineShowWithSpacing` (operator `"`). -/
def textNextLineShowWithSpacing (p : ContentStreamParser) (operands : List String) :
    ContentStreamParser :=
  if operands.length < 3 then p
  else
    let p1 := setWordSpace p (operands.take 1)
    let p2 := setCharSpace p1 (operands.drop 1 |>.take 1)
    showText p2 (operands.drop 2)

/-! ### Line style and color operators (content_stream_parser.go,
lines 1026-1180) -/

/-- `setLineWidth` (operator `w`). -/
def setLineWidth (p : ContentStreamParser) (operands : List String) : ContentStreamParser :=
  if operands.length < 1 then p
  else { p with graphicsState :=
    { p.graphicsState with LineWidth := parseFloat (operands.getD 0 "") } }

/-- `setLineCap` (operator `J`). -/
def setLineCap (p : ContentStreamParser) (operands : List String) : ContentStreamParser :=
  if operands.length < 1 then p
  else { p with graphicsState :=
    { p.graphicsState with LineCap := parseIntGo (operands.getD 0 "") } }

/-- `setLineJoin` (operator `j`). -/
def setLineJoin (p : ContentStreamParser) (operands : List String) : ContentStreamParser :=
  if operands.length < 1 then p
  else { p with graphicsState :=
    { p.graphicsState with LineJoin := parseIntGo (operands.getD 0 "") } }

/-- `setMiterLimit` (operator `M`). -/
def setMiterLimit (p : ContentStreamParser) (operands : List String) : ContentStreamParser :=
  if operands.length < 1 then p
  else { p with graphicsState :=
    { p.graphicsState with MiterLimit := parseFloat (operands.getD 0 "") } }

/-- `setDashPattern` (operator `d`): the source stores a placeholder. -/
def setDashPattern (p : ContentStreamParser) (operands : List String) : ContentStreamParser :=
  if 2 ≤ operands.length then
    { p with graphicsState := { p.graphicsState with DashPattern := [1] } }
  else p

/-- `setStrokeColorRGB` (operator `RG`). -/
def setStrokeColorRGB (p : ContentStreamParser) (operands : List String) : ContentStreamParser :=
  if operands.length < 3 then p
  else { p with graphicsState := { p.graphicsState with StrokeColor :=
    ⟨parseFloat (operands.getD 0 ""), parseFloat (operands.getD 1 "")
     , parseFloat (operands.getD 2 ""), "RGB"⟩ } }

/-- `setFillColorRGB` (operator `rg`). -/
def setFillColorRGB (p : ContentStreamParser) (operands : List String) : ContentStreamParser :=
  if operands.length < 3 then p
  else { p with graphicsState := { p.graphicsState with FillColor :=
    ⟨parseFloat (operands.getD 0 ""), parseFloat (operands.getD 1 "")
     , parseFloat (operands.getD 2 ""), "RGB"⟩ } }

/-- `setStrokeColorGray` (operator `G`). -/
def setStrokeColorGray (p : ContentStreamParser) (operands : List String) : ContentStreamParser :=
  if operands.length < 1 then p
  else
    let gray := parseFloat (operands.getD 0 "")
    { p with graphicsState := { p.graphicsState with StrokeColor := ⟨gray, gray, gray, "Gray"⟩ } }

/-- `setFillColorGray` (operator `g`). -/
def setFillColorGray (p : ContentStreamParser) (operands : List String) : ContentStreamParser :=
  if operands.length < 1 then p
  else
    let gray := parseFloat (operands.getD 0 "")
    { p with graphicsState := { p.graphicsState with FillColor := ⟨gray, gray, gray, "Gray"⟩ } }

/-- `setStrokeColorCMYK` (operator `K`). -/
def setStrokeColorCMYK (p : ContentStreamParser) (operands : List String) : ContentStreamParser :=
  if operands.length < 4 then p
  else
    let c := parseFloat (operands.getD 0 "")
    let m := parseFloat (operands.getD 1 "")
    let y := parseFloat (operands.getD 2 "")
    let k := parseFloat (operands.getD 3 "")
    { p with graphicsState := { p.graphicsState with StrokeColor :=
      ⟨(1 - c) * (1 - k), (1 - m) * (1 - k), (1 - y) * (1 - k), "CMYK"⟩ } }

/-- `setFillColorCMYK` (operator `k`). -/
def setFillColorCMYK (p : ContentStreamParser) (operands : List String) : ContentStreamParser :=
  if operands.length < 4 then p
  else
    let c := parseFloat (operands.getD 0 "")
    let m := parseFloat (operands.getD 1 "")
    let y := parseFloat (operands.getD 2 "")
    let k := parseFloat (operands.getD 3 "")
    { p with graphicsState := { p.graphicsState with FillColor :=
      ⟨(1 - c) * (1 - k), (1 - m) * (1 - k), (1 - y) * (1 - k), "CMYK"⟩ } }

/-- `setStrokeColor` (operators `SC`/`SCN`): arity decides gray vs RGB. -/
def setStrokeColor (p : ContentStreamParser) (operands : List String) : ContentStreamParser :=
  if operands.length = 1 then setStrokeColorGray p operands
  else if 3 ≤ operands.length then setStrokeColorRGB p operands
  else p

/-- `setFillColor` (operators `sc`/`scn`). -/
def setFillColor (p : ContentStreamParser) (operands : List String) : ContentStreamParser :=
  if operands.length = 1 then setFillColorGray p operands
  else if 3 ≤ operands.length then setFillColorRGB p operands
  else p

/-! ### Operator dispatch and the parse loop (content_stream_parser.go,
lines 262-286 and 505-623) -/

/-- `processOperator` from content_stream_parser.go.  Operators with no case
in the Go switch (`W`, `gs`, `Do`, marked-content operators, …) fall through
unchanged. -/
def processOperator (p : ContentStreamParser) (operator : String) (operands : List String) :
    ContentStreamParser :=
  if operator = "BT" then beginText p
  else if operator = "ET" then endText p
  else if operator = "Td" then textMoveBy p operands
  else if operator = "TD" then textMoveByWithLeading p operands
  else if operator = "Tm" then setTextMatrix p operands
  else if operator = "T*" then textNextLine p
  else if operator = "Tj" then showText p operands
  else if operator = "TJ" then showTextArray p operands
  else if operator = "'" then textNextLineShow p operands
  else if operator = "\"" then textNextLineShowWithSpacing p operands
  else if operator = "Tc" then setCharSpace p operands
  else if operator = "Tw" then setWordSpace p operands
  else if operator = "Tz" then setHorizontalScale p operands
  else if operator = "TL" then setTextLeading p operands
  else if operator = "Tf" then setFont p operands
  else if operator = "Tr" then setTextRenderMode p operands
  else if operator = "Ts" then setTextRise p operands
  else if operator = "q" then saveGraphicsState p
  else if operator = "Q" then restoreGraphicsState p
  else if operator = "cm" then concatenateMatrix p operands
  else if operator = "m" then moveTo p operands
  else if operator = "l" then lineTo p operands
  else if operator = "c" then curveTo p operands
  else if operator = "v" then curveToV p operands
  else if operator = "y" then curveToY p operands
  else if operator = "h" then closePath p
  else if operator = "re" then rectangle p operands
  else if operator = "S" ∨ operator = "s" then stroke p
  else if operator = "f" ∨ operator = "F" ∨ operator = "f*" then fill p
  else if operator = "B" ∨ operator = "B*" ∨ operator = "b" ∨ operator = "b*" then
    fillAndStroke p
  else if operator = "n" then endPath p
  else if operator = "w" then setLineWidth p operands
  else if operator = "J" then setLineCap p operands
  else if operator = "j" then setLineJoin p operands
  else if operator = "M" then setMiterLimit p operands
  else if operator = "d" then setDashPattern p operands
  else if operator = "RG" then setStrokeColorRGB p operands
  else if operator = "rg" then setFillColorRGB p operands
  else if operator = "G" then setStrokeColorGray p operands
  else if operator = "g" then setFillColorGray p operands
  else if operator = "K" then setStrokeColorCMYK p operands
  else if operator = "k" then setFillColorCMYK p operands
  else if operator = "CS" ∨ operator = "cs" then p
  else if operator = "SC" ∨ operator = "SCN" then setStrokeColor p operands
  else if operator = "sc" ∨ operator = "scn" then setFillColor p operands
  else p

/-- The operand-accumulation loop of `Parse` (content_stream_parser.go,
lines 262-286): non-operator tokens pile up as operands, an operator token
dispatches and clears them. -/
def parseLoop (st : ContentStreamParser × List String) (token : String) :
    ContentStreamParser × List String :=
  if isOperator token then (processOperator st.1 token st.2, [])
  else (st.1, st.2 ++ [token])

/-- Run a token list through the parse loop. -/
def runTokens (p : ContentStreamParser) (tokens : List String) : ContentStreamParser :=
  (tokens.foldl parseLoop (p, [])).1

/-- `Parse` from content_stream_parser.go: tokenize, interpret, return the
collected objects. -/
def Parse (p : ContentStreamParser) (content : String) : Objects :=
  (runTokens p (tokenize content)).objects

/-! ### Text organizer (src/unnamed/part_006, package extractors) -/

/-- `TextOrganizer` from part_006. -/
structure TextOrganizer where
  xTolerance : ℚ
  yTolerance : ℚ
deriving DecidableEq

/-- `NewTextOrganizer` from part_006 (both tolerances default to 3.0). -/
def NewTextOrganizer : TextOrganizer := ⟨3, 3⟩

/-- `Word` from part_006. -/
structure Word where
  Text : String
  BBox : BoundingBox
  Characters : List CharObject
deriving DecidableEq

/-- `createWord` from part_006 (only ever called on non-empty groups; the Go
code would panic on an empty one). -/
def createWord (chars : List CharObject) : Word :=
  match chars with
  | [] => ⟨"", ⟨0, 0, 0, 0⟩, []⟩
  | c0 :: _ =>
    { Text := chars.foldl (fun acc c => acc ++ c.Text) ""
      BBox :=
        ⟨chars.foldl (fun acc c => min acc c.X0) c0.X0
         , chars.foldl (fun acc c => min acc c.Y0) c0.Y0
         , chars.foldl (fun acc c => max acc c.X1) c0.X1
         , chars.foldl (fun acc c => max acc c.Y1) c0.Y1⟩
      Characters := chars }

/-- The in-place `sort.Slice(lineChars, by X0)` of part_006, modelled by a
stable sort (Go's unstable sort may order equal-`X0` characters differently;
no claim depends on tie order). -/
def sortByX0 (l : List CharObject) : List CharObject :=
  List.insertionSort (fun a b => a.X0 ≤ b.X0) l

/-- The word-splitting loop of `extractWordsFromLine` (part_006): `prev` is
the previous (sorted) character, `current` the word being accumulated. -/
def extractWordsLoop (t : TextOrganizer) : CharObject → List CharObject → List Word →
    List CharObject → List Word
  | _, current, acc, [] =>
    if current.isEmpty then acc else acc ++ [createWord current]
  | prev, current, acc, c :: rest =>
    let gap := c.X0 - prev.X1
    if gap > t.xTolerance ∨ gap > c.Width * (3/10) then
      extractWordsLoop t c [c]
        (if current.isEmpty then acc else acc ++ [createWord current]) rest
    else extractWordsLoop t c (current ++ [c]) acc rest

/-- `extractWordsFromLine` from part_006. -/
def extractWordsFromLine (t : TextOrganizer) (lineChars : List CharObject) : List Word :=
  match sortByX0 lineChars with
  | [] => []
  | c0 :: rest => extractWordsLoop t c0 [c0] [] rest

/-! ### Table extraction, line-based strategy (src/unnamed/part_009, first
document, package pdf) -/

/-- `tableExtractor` from part_009 (the `page` handle is irrelevant to the
region/grid computations and omitted). -/
structure TableExtractor where
  verticalStrategy : String
  horizontalStrategy : String
  minTableSize : ℕ
  textTolerance : ℚ
  snapTolerance : ℚ
  joinTolerance : ℚ
  edgeTolerance : ℚ
deriving DecidableEq

/-- `newTableExtractor` from part_009 with no options applied. -/
def defaultTableExtractor : TableExtractor :=
  ⟨"lines", "lines", 3, 3, 3, 3, 10⟩

/-- `tableRegion` from part_009. -/
structure TableRegion where
  BBox : BoundingBox
  HLines : List ℚ
  VLines : List ℚ
  Cells : List (List BoundingBox)
deriving DecidableEq

/-- Position snapping of `getUniquePositions`:
`math.Round(pos/snapTolerance) * snapTolerance`. -/
def snapPos (te : TableExtractor) (pos : ℚ) : ℚ :=
  goRound (pos / te.snapTolerance) * te.snapTolerance

/-- `getUniquePositions` from part_009: the set of snapped start and end
positions of the lines.  The Go map yields its keys in unspecified order and
the caller sorts them; the dedup order chosen here is irrelevant after that
sort. -/
def getUniquePositions (te : TableExtractor) (lines : List LineObject) (horizontal : Bool) :
    List ℚ :=
  (lines.flatMap (fun l =>
    if horizontal then [snapPos te l.Y0, snapPos te l.Y1]
    else [snapPos te l.X0, snapPos te l.X1])).dedup

/-- `sort.Float64s`. -/
def sortQ (l : List ℚ) : List ℚ := List.insertionSort (fun a b => a ≤ b) l

/-- `createTableRegion` from part_009: needs at least 2 distinct positions in
each direction, sorts them, and builds the cell grid of adjacent position
pairs. -/
def createTableRegion (te : TableExtractor) (hLines vLines : List LineObject) :
    Option TableRegion :=
  let hPositions := getUniquePositions te hLines true
  let vPositions := getUniquePositions te vLines false
  if hPositions.length < 2 ∨ vPositions.length < 2 then none
  else
    let hs := sortQ hPositions
    let vs := sortQ vPositions
    let cells : List (List BoundingBox) :=
      (List.range (hs.length - 1)).map (fun i =>
        (List.range (vs.length - 1)).map (fun j =>
          ⟨vs.getD j 0, hs.getD i 0, vs.getD (j + 1) 0, hs.getD (i + 1) 0⟩))
    some
      { BBox := ⟨vs.headI, hs.headI, vs.getLastD 0, hs.getLastD 0⟩
        HLines := hs, VLines := vs, Cells := cells }

/-- The character comparator of `extractCellText` (Y first beyond the text
tolerance, then X). -/
def cellCharLess (te : TableExtractor) (a b : CharObject) : Prop :=
  if |a.Y0 - b.Y0| > te.textTolerance then a.Y0 < b.Y0 else a.X0 < b.X0

instance (te : TableExtractor) : DecidableRel (cellCharLess te) := by
  intro a b
  unfold cellCharLess
  infer_instance

/-- Text-joining loop of `extractCellText`: newline on a Y jump, space on an
X gap. -/
def cellTextJoin (te : TableExtractor) : List CharObject → String → ℚ → ℚ → String
  | [], text, _, _ => text
  | c :: rest, text, lastY, lastX =>
    let text' :=
      if 0 < lastY ∧ |c.Y0 - lastY| > te.textTolerance then text ++ "\n"
      else if 0 < lastX ∧ c.X0 - lastX > te.textTolerance then text ++ " "
      else text
    cellTextJoin te rest (text' ++ c.Text) c.Y0 c.X1

/-- `extractCellText` from part_009: characters whose center falls inside the
cell, sorted, then joined.  The Go `sort.Slice` with this non-transitive
comparator is modelled by insertion sort on the same comparator. -/
def extractCellText (te : TableExtractor) (cell : BoundingBox) (chars : List CharObject) :
    String :=
  let cellChars := chars.filter (fun c =>
    let bb := c.GetBBox
    let centerX := (bb.X0 + bb.X1) / 2
    let centerY := (bb.Y0 + bb.Y1) / 2
    cell.X0 ≤ centerX ∧ centerX ≤ cell.X1 ∧ cell.Y0 ≤ centerY ∧ centerY ≤ cell.Y1)
  cellTextJoin te (List.insertionSort (cellCharLess te) cellChars) "" (-1000) (-1000)

/-- `extractTableFromRegion` from part_009: one row of cell text per cell
row. -/
def extractTableFromRegion (te : TableExtractor) (region : TableRegion) (objs : Objects) :
    Table :=
  { Rows := region.Cells.map (fun row => row.map (fun cell =>
      extractCellText te cell objs.Chars))
    BBox := region.BBox }

/-! ### Spec-side definitions and concrete scenario states (used to state the
claims; the interpreter definitions above are the code side) -/

/-- The `FontInfo` record `extractFonts` builds for a resource font named F1
with no ToUnicode CMap (C1 scenario). -/
def fontF1 : FontInfo :=
  { Name := "F1", BaseFont := "", Encoding := "", IsVertical := false
    SpaceWidth := 1/4, FontMatrix := ⟨1/1000, 0, 0, 1/1000, 0, 0⟩
    ToUnicodeCMap := none }

/-- Written from the claim C2's words, not from the source: every point of the
path lies within `tol` of one of the 4 corners of the path's own axis-aligned
bounding box. -/
def pathOnBBoxCorners (path : List PathElement) (tol : ℚ) : Bool :=
  let b := getPathBounds path
  (path.flatMap (fun e => e.Points)).all (fun pt =>
    (|pt.X - b.1| ≤ tol ∨ |pt.X - b.2.2.1| ≤ tol) ∧
      (|pt.Y - b.2.1| ≤ tol ∨ |pt.Y - b.2.2.2| ≤ tol))

/-- A diamond path (4 line segments between edge midpoints of its bounding
box): `isRectanglePath` accepts it although its points sit on no corner. -/
def diamondParser : ContentStreamParser :=
  { initParser [] with currentPath :=
      [⟨"moveto", [⟨0, 0⟩]⟩, ⟨"lineto", [⟨10, 10⟩]⟩, ⟨"lineto", [⟨20, 0⟩]⟩,
       ⟨"lineto", [⟨10, -10⟩]⟩, ⟨"close", []⟩] }

/-- Dispatch a list of already-accumulated (operator, operand-list) pairs
through `processOperator`. -/
def runOps (p : ContentStreamParser) (ops : List (String × List String)) :
    ContentStreamParser :=
  ops.foldl (fun st x => processOperator st x.1 x.2) p

/-- The text-state- and text-matrix-mutating operators named by claim C3. -/
def textOps : List String :=
  ["BT", "ET", "Td", "TD", "Tm", "T*", "Tc", "Tw", "Tz", "TL", "Tf", "Tr", "Ts"]

/-- Per-prefix stack depth of a `q`/`Q` sequence: a save pushes, a restore
pops but never below zero (ℕ subtraction is already clamped). -/
def clampDepth (ops : List String) : ℕ :=
  ops.foldl (fun d op => if op = "q" then d + 1 else if op = "Q" then d - 1 else d) 0

/-- A 10-unit-wide character at x ∈ [0,10] (C7 scenario). -/
def charNarrow : CharObject :=
  { Text := "a", Font := "", FontSize := 10, X0 := 0, Y0 := 0, X1 := 10, Y1 := 10
    Width := 10, Height := 10, ColorV := ⟨0, 0, 0, 0⟩, MatrixV := TransformMatrix.zero }

/-- A 20-unit-wide character at x ∈ [15,35], leaving a gap of 5 after
`charNarrow` (C7 scenario): 5 exceeds the x-tolerance 3 but not
0.3 × 20 = 6. -/
def charWide : CharObject :=
  { charNarrow with Text := "b", X0 := 15, X1 := 35, Width := 20 }

/-- A horizontal ruling line at height `y` spanning x ∈ [0,99] (C8 scenario). -/
def hRule (y : ℚ) : LineObject := ⟨0, y, 99, y, 1, ⟨0, 0, 0, 0⟩, false⟩

/-- A vertical ruling line at `x` spanning y ∈ [0,99] (C8 scenario). -/
def vRule (x : ℚ) : LineObject := ⟨x, 0, x, 99, 1, ⟨0, 0, 0, 0⟩, false⟩

/-- The table region the line-based strategy builds from rules at positions 0
and 99 in both directions (C8 scenario). -/
def sampleRegion : TableRegion :=
  ⟨⟨0, 0, 99, 99⟩, [0, 99], [0, 99], [[⟨0, 0, 99, 99⟩]]⟩

/-- Number of word splits the source's gap condition produces along a sorted
line, phrased with the equivalent single threshold
`min(xTolerance, 0.3 × width)`. -/
def minGapSplits (t : TextOrganizer) : CharObject → List CharObject → ℕ
  | _, [] => 0
  | prev, c :: rest =>
    (if c.X0 - prev.X1 > min t.xTolerance (c.Width * (3/10)) then 1 else 0) +
      minGapSplits t c rest

/-! ## Theorems -/

attribute [local semireducible] Rat.mul Rat.inv Rat.add Rat.sub

/-- C9: matrix composition is associative, and the identity matrix is a left
and a right unit for `MultiplyMatrix`. -/
theorem multiplyMatrix_assoc_and_identity (A B C : Matrix) :
    MultiplyMatrix (MultiplyMatrix A B) C = MultiplyMatrix A (MultiplyMatrix B C) ∧
    MultiplyMatrix IdentityMatrix A = A ∧
    MultiplyMatrix A IdentityMatrix = A := by
  obtain ⟨a1, b1, c1, d1, e1, f1⟩ := A
  obtain ⟨a2, b2, c2, d2, e2, f2⟩ := B
  obtain ⟨a3, b3, c3, d3, e3, f3⟩ := C
  refine ⟨?_, ?_, ?_⟩ <;>
    simp only [MultiplyMatrix, IdentityMatrix, Matrix.mk.injEq] <;>
    refine ⟨by ring, by ring, by ring, by ring, by ring, by ring⟩

/-- C4: evaluation of the CMap code at the inputs named by the claim.  The
block regexes demand a numeric count before `beginbfchar`/`beginbfrange`, so
the count-less inputs of the claim (and of the repository's own
`cmap_test.go`) parse to an empty table and `decode` reports not-found; the
same blocks with a leading count behave as the claim describes. -/
theorem cmap_countless_blocks_not_parsed :
    MapCIDToUnicode (cmapParse "beginbfchar <0001> <0041> endbfchar") 1 = ("", false) ∧
    MapCIDToUnicode (cmapParse "beginbfrange <0001> <0005> <0041> endbfrange") 3 = ("", false) ∧
    MapCIDToUnicode (cmapParse "1 beginbfchar <0001> <0041> endbfchar") 1 = ("A", true) ∧
    MapCIDToUnicode (cmapParse "1 beginbfrange <0001> <0005> <0041> endbfrange") 3 = ("C", true) ∧
    MapCIDToUnicode (cmapParse "1 beginbfrange <0001> <0005> <0041> endbfrange") 6 = ("", false) := by
  refine ⟨rfl, rfl, rfl, rfl, rfl⟩

/-- C1: interpreting `BT /F1 12 Tf 100 700 Td (Hi) Tj ET` from the initial
state with resource font F1 (no ToUnicode CMap) emits exactly 2 character
primitives, the first at device x 100, the second at device x
`100 + widthOf(H) × 12` with `widthOf` the fixed character-class width
table. -/
theorem tj_hi_scenario :
    (Parse (initParser [("F1", fontF1)]) "BT /F1 12 Tf 100 700 Td (Hi) Tj ET").Chars.length
        = 2 ∧
    (Parse (initParser [("F1", fontF1)]) "BT /F1 12 Tf 100 700 Td (Hi) Tj ET").Chars.map
        (fun c => c.X0) = [100, 100 + getCharWidth "H" * 12] := by
  constructor
  · decide
  · decide

/-- C2 counterexample: filling the diamond path (4 segments joining the edge
midpoints of its bounding box) emits a filled rectangle although no path
point lies on a bounding-box corner, not even within tolerance 1 (the misses
are all by 10 units, so this holds for every tolerance below 10). -/
theorem fill_diamond_counterexample :
    (fill diamondParser).objects.Rects.length = 1 ∧
    isRectanglePath diamondParser.currentPath = true ∧
    pathOnBBoxCorners diamondParser.currentPath 1 = false := by
  decide

/-- C3 counterexample: after `q`, `5 Tc`, `Q` the character spacing is still
5, not the 0 it held before the `q` — the text sub-state is not restored. -/
theorem qQ_text_state_not_restored :
    (runTokens (initParser []) (tokenize "q 5 Tc Q")).textState.CharSpace = 5 ∧
    (initParser []).textState.CharSpace = 0 := by
  decide

/-- C5 counterexample: with horizontal scale 50 (via `Tz`) and font size 12,
the numeric TJ element 1000 moves the text matrix by −12, not the
−(1000/1000)×12×50/100 = −6 the claim predicts. -/
theorem tj_kerning_counterexample :
    (runTokens (initParser []) (tokenize "BT 50 Tz [ 1000 ] TJ ET")).textState.Scale = 50 ∧
    (runTokens (initParser []) (tokenize "BT 50 Tz [ 1000 ] TJ ET")).textState.FontSize = 12 ∧
    (runTokens (initParser []) (tokenize "BT 50 Tz [ 1000 ] TJ ET")).textMatrix.E = -12 ∧
    ((-12 : ℚ) ≠ -(1000 / 1000 * 12 * (50 / 100))) := by
  decide

/-- C6 counterexample: `Tf` naming a font absent from an empty resource table
leaves no font selected, and the following `Tj` emits no character primitive
at all — the text is not passed through. -/
theorem tf_missing_font_emits_nothing :
    (Parse (initParser []) "BT /F1 12 Tf (A) Tj ET").Chars = [] := by
  decide

/-- C7 counterexample: a gap of 5 between a 10-wide and a 20-wide character
does not exceed `max(xTolerance, 0.3 × width) = max(3, 6)`, yet the code
splits the line into 2 words (its condition is the minimum, not the
maximum, of the two thresholds). -/
theorem extractWords_between_thresholds_counterexample :
    (extractWordsFromLine NewTextOrganizer [charNarrow, charWide]).length = 2 ∧
    charWide.X0 - charNarrow.X1 ≤
      max NewTextOrganizer.xTolerance (charWide.Width * (3/10)) := by
  decide

/-- C10 counterexample: after `q Q Q q` the stack holds 1 saved state, while
saveCount − restoreCount clamped at 0 is 2 − 2 = 0. -/
theorem qQ_clamped_difference_counterexample :
    (runTokens (initParser []) ["q", "Q", "Q", "q"]).stateStack.length = 1 ∧
    (["q", "Q", "Q", "q"] : List String).count "q" = 2 ∧
    (["q", "Q", "Q", "q"] : List String).count "Q" = 2 ∧
    (runTokens (initParser []) ["q", "Q", "Q", "q"]).stateStack.length ≠ 2 - 2 := by
  decide

/-- A path accepted by `isRectanglePath` has at least 3 elements. -/
theorem isRectanglePath_length (path : List PathElement)
    (h : isRectanglePath path = true) : 3 ≤ path.length := by
  unfold isRectanglePath at h
  simp only [Bool.and_eq_true, decide_eq_true_eq] at h
  calc 3 = path.countP (fun e => e.etype = "lineto") := h.1.symm
    _ ≤ path.length := List.countP_le_length _

/-- C2 amended: a fill operator emits exactly one filled rectangle iff the
accumulated path passes the structural `isRectanglePath` test (exactly 3
`lineto` elements plus a `close`); no geometric corner check is involved, and
a path failing the test emits nothing at all. -/
theorem fill_emits_rect_iff_structural (p : ContentStreamParser) :
    ((fill p).objects.Rects.length = p.objects.Rects.length + 1 ↔
      isRectanglePath p.currentPath = true) ∧
    (isRectanglePath p.currentPath = false → (fill p).objects = p.objects) := by
  unfold fill createFilledPath
  by_cases h3 : p.currentPath.length < 3
  · have hrect : isRectanglePath p.currentPath = false := by
      rcases hb : isRectanglePath p.currentPath with _ | _
      · rfl
      · exact absurd (isRectanglePath_length _ hb) (by omega)
    simp [h3, hrect]
  · by_cases hr : isRectanglePath p.currentPath
    · simp [h3, hr]
    · simp only [Bool.not_eq_true] at hr
      simp [h3, hr]

/-- Witness for C2: the empty path is not a structural rectangle and filling
it emits nothing. -/
theorem fill_emits_rect_iff_structural_witness :
    (fill (initParser [])).objects = (initParser []).objects :=
  (fill_emits_rect_iff_structural (initParser [])).2 (by decide)

/-- C5 amended: a TJ array element that is neither a literal string nor a hex
string takes the kerning branch: the whole state is unchanged except that
`textMatrix.E` drops by `value/1000 × fontSize × textMatrix.A` — the
horizontal scale set by `Tz` does not enter, and no primitive is emitted. -/
theorem tj_numeric_element_shift (p : ContentStreamParser) (elem : String)
    (h1 : goHasPrefix elem "(" = false) (h2 : goHasPrefix elem "<" = false) :
    tjElementStep p elem =
      { p with textMatrix := { p.textMatrix with
          E := p.textMatrix.E -
            parseFloat elem / 1000 * p.textState.FontSize * p.textMatrix.A } } := by
  simp [tjElementStep, h1, h2]

/-- Witness for C5: the element 1000 at the initial state. -/
theorem tj_numeric_element_shift_witness :
    tjElementStep (initParser []) "1000" =
      { initParser [] with textMatrix := { (initParser []).textMatrix with
          E := (initParser []).textMatrix.E -
            parseFloat "1000" / 1000 * (initParser []).textState.FontSize *
              (initParser []).textMatrix.A } } :=
  tj_numeric_element_shift (initParser []) "1000" (by decide) (by decide)

/-- C6 amended: a `Tf` whose resource name misses the font table keeps the
previous font selection (none, if none was ever made) while still setting the
size; and with no font selected, showing text emits nothing and leaves the
state untouched. -/
theorem setFont_missing_font_behaviour (p : ContentStreamParser) (nm sz t : String)
    (h : p.fonts.lookup (trimSlash nm) = none) (hf : p.textState.Font = none) :
    setFont p [nm, sz] =
      { p with textState := { p.textState with FontSize := parseFloat sz } } ∧
    addTextChars p t = p := by
  constructor
  · simp [setFont, h]
  · by_cases ht : t = "" <;> simp [addTextChars, ht, hf]

/-- Witness for C6: `Tf` naming F1 against an empty font table. -/
theorem setFont_missing_font_behaviour_witness :
    setFont (initParser []) ["/F1", "12"] =
      { initParser [] with textState :=
          { (initParser []).textState with FontSize := parseFloat "12" } } ∧
    addTextChars (initParser []) "A" = initParser [] :=
  setFont_missing_font_behaviour (initParser []) "/F1" "12" "A" (by decide) (by decide)

/-- A text-state or text-matrix operator neither reads nor writes the saved
graphics-state stack: dispatching it commutes with replacing the stack. -/
theorem processOperator_textOp_stack (op : String) (hop : op ∈ textOps)
    (p : ContentStreamParser) (σ : List GraphicsState) (args : List String) :
    processOperator { p with stateStack := σ } op args =
      { processOperator p op args with stateStack := σ } := by
  fin_cases hop <;>
    by_cases h1 : args.length < 1 <;> by_cases h2 : args.length < 2 <;>
    by_cases h6 : args.length < 6 <;>
    simp [processOperator, beginText, endText, textMoveBy, textMoveByWithLeading,
      setTextMatrix, textNextLine, setCharSpace, setWordSpace, setHorizontalScale,
      setTextLeading, setFont, setTextRenderMode, setTextRise, h1, h2, h6]

/-- Frame lemma lifted to sequences of text operators. -/
theorem runOps_textOps_stack (w : List (String × List String))
    (hw : ∀ x ∈ w, x.1 ∈ textOps) (p : ContentStreamParser) (σ : List GraphicsState) :
    runOps { p with stateStack := σ } w = { runOps p w with stateStack := σ } := by
  induction w generalizing p with
  | nil => rfl
  | cons x xs ih =>
    have hx : x.1 ∈ textOps := hw x (List.mem_cons_self x xs)
    have hxs : ∀ y ∈ xs, y.1 ∈ textOps := fun y hy => hw y (List.mem_cons_of_mem x hy)
    show runOps (processOperator { p with stateStack := σ } x.1 x.2) xs = _
    rw [processOperator_textOp_stack x.1 hx p σ x.2]
    exact ih hxs (processOperator p x.1 x.2)

/-- C3 amended: around any sequence of text-state/text-matrix operators,
`q … Q` restores exactly the `GraphicsState` record (CTM, colors, line
attributes) and the stack; the text sub-state, the text matrices and every
other component keep the values the intermediate operators gave them — the
text side is not part of what `q` saves. -/
theorem qQ_restores_graphics_state_only (p : ContentStreamParser)
    (w : List (String × List String)) (hw : ∀ x ∈ w, x.1 ∈ textOps) :
    processOperator (runOps (processOperator p "q" []) w) "Q" [] =
      { runOps p w with graphicsState := p.graphicsState, stateStack := p.stateStack } := by
  have hq : processOperator p "q" [] =
      { p with stateStack := p.stateStack ++ [p.graphicsState] } := rfl
  rw [hq, runOps_textOps_stack w hw p (p.stateStack ++ [p.graphicsState])]
  show restoreGraphicsState _ = _
  unfold restoreGraphicsState
  simp [List.dropLast_concat]

/-- Witness for C3: `q`, `5 Tc`, `Q` at the initial state. -/
theorem qQ_restores_graphics_state_only_witness :
    processOperator (runOps (processOperator (initParser []) "q" []) [("Tc", ["5"])]) "Q" [] =
      { runOps (initParser []) [("Tc", ["5"])] with
          graphicsState := (initParser []).graphicsState
          stateStack := (initParser []).stateStack } :=
  qQ_restores_graphics_state_only (initParser []) [("Tc", ["5"])] (by decide)

/-- Running any all-`q`/`Q` token sequence from a state whose stack holds `d`
copies of the current graphics state keeps the rest of the state intact and
leaves `foldl (clamped step) d` copies on the stack. -/
theorem qQ_tokens_replicate (ops : List String) (hops : ∀ op ∈ ops, op = "q" ∨ op = "Q")
    (p : ContentStreamParser) (d : ℕ) :
    ops.foldl parseLoop ({ p with stateStack := List.replicate d p.graphicsState }, []) =
      ({ p with stateStack :=
          (List.replicate
            (ops.foldl (fun k op => if op = "q" then k + 1 else if op = "Q" then k - 1 else k) d)
            p.graphicsState) }, []) := by
  induction ops generalizing d with
  | nil => rfl
  | cons op ops ih =>
    have hop := hops op (List.mem_cons_self op ops)
    have hrest : ∀ x ∈ ops, x = "q" ∨ x = "Q" := fun x hx =>
      hops x (List.mem_cons_of_mem op hx)
    rcases hop with rfl | rfl
    · show ops.foldl parseLoop
        (processOperator { p with stateStack := List.replicate d p.graphicsState } "q" [], []) = _
      have hstep : processOperator
          { p with stateStack := List.replicate d p.graphicsState } "q" [] =
          { p with stateStack := List.replicate (d + 1) p.graphicsState } := by
        show { p with stateStack := List.replicate d p.graphicsState ++ [p.graphicsState] } = _
        rw [← List.replicate_succ' (n := d)]
      rw [hstep]
      exact ih hrest (d + 1)
    · show ops.foldl parseLoop
        (processOperator { p with stateStack := List.replicate d p.graphicsState } "Q" [], []) = _
      have hstep : processOperator
          { p with stateStack := List.replicate d p.graphicsState } "Q" [] =
          { p with stateStack := List.replicate (d - 1) p.graphicsState } := by
        show restoreGraphicsState _ = _
        cases d with
        | zero => rfl
        | succ k =>
          unfold restoreGraphicsState
          rw [List.replicate_succ' (n := k)]
          simp [List.dropLast_concat]
      rw [hstep]
      exact ih hrest (d - 1)

/-- C10 amended: from a state with an empty saved stack, any `q`/`Q` token
sequence leaves the visible graphics state (and everything else) exactly as
it was; the stack depth equals the *per-step clamped* fold of the sequence
(each `Q` on an empty stack is discounted, so the depth can exceed
`max(saveCount − restoreCount, 0)`); and a `Q` on the empty stack is a
no-op. -/
theorem qQ_sequence_stack_behaviour (p : ContentStreamParser) (ops : List String)
    (h0 : p.stateStack = []) (hops : ∀ op ∈ ops, op = "q" ∨ op = "Q") :
    runTokens p ops = { p with stateStack := List.replicate (clampDepth ops) p.graphicsState } ∧
    (runTokens p ops).stateStack.length = clampDepth ops ∧
    restoreGraphicsState p = p := by
  have hp : p = { p with stateStack := List.replicate 0 p.graphicsState } := by
    show p = { p with stateStack := [] }
    rw [← h0]
  have hrun : runTokens p ops =
      { p with stateStack := List.replicate (clampDepth ops) p.graphicsState } := by
    show (ops.foldl parseLoop (p, [])).1 = _
    conv_lhs => rw [hp]
    rw [qQ_tokens_replicate ops hops p 0]
    rfl
  refine ⟨hrun, ?_, ?_⟩
  · rw [hrun]
    simp
  · unfold restoreGraphicsState
    simp [h0]

/-- Witness for C10: the sequence `q Q q` at the initial state. -/
theorem qQ_sequence_stack_behaviour_witness :
    runTokens (initParser []) ["q", "Q", "q"] =
      { initParser [] with stateStack :=
          (List.replicate (clampDepth ["q", "Q", "q"]) (initParser []).graphicsState) } ∧
    (runTokens (initParser []) ["q", "Q", "q"]).stateStack.length =
      clampDepth ["q", "Q", "q"] ∧
    restoreGraphicsState (initParser []) = initParser [] :=
  qQ_sequence_stack_behaviour (initParser []) ["q", "Q", "q"] rfl (by decide)

/-- `createWord` keeps exactly the characters it was given. -/
theorem createWord_characters (chars : List CharObject) (h : chars ≠ []) :
    (createWord chars).Characters = chars := by
  cases chars with
  | nil => exact absurd rfl h
  | cons c cs => rfl

/-- Word-count invariant of the splitting loop: with a non-empty word in
progress, the loop returns one word per min-threshold gap plus one. -/
theorem extractWordsLoop_length (t : TextOrganizer) (rest : List CharObject) :
    ∀ (prev : CharObject) (current : List CharObject) (acc : List Word),
      current ≠ [] →
      (extractWordsLoop t prev current acc rest).length =
        acc.length + 1 + minGapSplits t prev rest := by
  induction rest with
  | nil =>
    intro prev current acc hc
    simp only [extractWordsLoop, minGapSplits]
    rw [if_neg (by simpa using hc)]
    simp
  | cons c rest ih =>
    intro prev current acc hc
    simp only [extractWordsLoop]
    by_cases h : (c.X0 - prev.X1 > t.xTolerance ∨ c.X0 - prev.X1 > c.Width * (3/10))
    · rw [if_pos h, if_neg (by simpa using hc)]
      rw [ih c [c] (acc ++ [createWord current]) (by simp)]
      have hmin : min t.xTolerance (c.Width * (3/10)) < c.X0 - prev.X1 := min_lt_iff.mpr h
      simp only [minGapSplits, gt_iff_lt, if_pos hmin, List.length_append, List.length_cons,
        List.length_nil]
      omega
    · rw [if_neg h]
      rw [ih c (current ++ [c]) acc (by simp)]
      have hmin : ¬ min t.xTolerance (c.Width * (3/10)) < c.X0 - prev.X1 := by
        rw [min_lt_iff]
        exact h
      simp only [minGapSplits, gt_iff_lt, if_neg hmin]
      omega

/-- Character-partition invariant of the splitting loop: the produced words
carry exactly the accumulated, current and remaining characters in order. -/
theorem extractWordsLoop_chars (t : TextOrganizer) (rest : List CharObject) :
    ∀ (prev : CharObject) (current : List CharObject) (acc : List Word),
      current ≠ [] →
      (extractWordsLoop t prev current acc rest).flatMap (fun w => w.Characters) =
        acc.flatMap (fun w => w.Characters) ++ current ++ rest := by
  induction rest with
  | nil =>
    intro prev current acc hc
    simp only [extractWordsLoop]
    rw [if_neg (by simpa using hc)]
    simp [createWord_characters current hc]
  | cons c rest ih =>
    intro prev current acc hc
    simp only [extractWordsLoop]
    by_cases h : (c.X0 - prev.X1 > t.xTolerance ∨ c.X0 - prev.X1 > c.Width * (3/10))
    · rw [if_pos h, if_neg (by simpa using hc)]
      rw [ih c [c] (acc ++ [createWord current]) (by simp)]
      simp [createWord_characters current hc]
    · rw [if_neg h]
      rw [ih c (current ++ [c]) acc (by simp)]
      simp

/-- C7 amended: on a line already sorted by `X0`, the word extractor returns
one word per gap exceeding `min(xTolerance, 0.3 × currentCharWidth)` plus
one — the dual threshold is a minimum (split when either threshold is
exceeded), not the maximum the claim states — and the words partition the
characters in order. -/
theorem extractWords_min_threshold (t : TextOrganizer) (c0 : CharObject)
    (rest : List CharObject)
    (hs : List.Sorted (fun a b : CharObject => a.X0 ≤ b.X0) (c0 :: rest)) :
    (extractWordsFromLine t (c0 :: rest)).length = 1 + minGapSplits t c0 rest ∧
    (extractWordsFromLine t (c0 :: rest)).flatMap (fun w => w.Characters) = c0 :: rest := by
  have hsort : sortByX0 (c0 :: rest) = c0 :: rest :=
    List.Sorted.insertionSort_eq hs
  unfold extractWordsFromLine
  rw [hsort]
  constructor
  · rw [extractWordsLoop_length t rest c0 [c0] [] (by simp)]
    simp
  · rw [extractWordsLoop_chars t rest c0 [c0] [] (by simp)]
    simp

/-- Witness for C7: the two-character line of the counterexample (gap 5,
min-threshold 3) yields 1 + 1 words. -/
theorem extractWords_min_threshold_witness :
    (extractWordsFromLine NewTextOrganizer [charNarrow, charWide]).length =
      1 + minGapSplits NewTextOrganizer charNarrow [charWide] ∧
    (extractWordsFromLine NewTextOrganizer [charNarrow, charWide]).flatMap
      (fun w => w.Characters) = [charNarrow, charWide] :=
  extractWords_min_threshold NewTextOrganizer charNarrow [charWide] (by decide)

/-- C8: every table the line-based strategy builds from a region has exactly
`len(HLines) − 1` rows of exactly `len(VLines) − 1` cells each, where
`HLines`/`VLines` are the region's sorted unique snapped line positions. -/
theorem table_grid_dimensions (te : TableExtractor) (hL vL : List LineObject)
    (region : TableRegion) (objs : Objects)
    (h : createTableRegion te hL vL = some region) :
    (extractTableFromRegion te region objs).Rows.length = region.HLines.length - 1 ∧
    ∀ row ∈ (extractTableFromRegion te region objs).Rows,
      row.length = region.VLines.length - 1 := by
  unfold createTableRegion at h
  dsimp only at h
  split at h
  · exact absurd h (by simp)
  · rw [Option.some.injEq] at h
    subst h
    constructor
    · simp [extractTableFromRegion]
    · intro row hrow
      simp only [extractTableFromRegion, List.mem_map, List.mem_range] at hrow
      obtain ⟨cellRow, ⟨i, hi, hcells⟩, hrw⟩ := hrow
      subst hrw
      subst hcells
      simp

/-- Witness for C8: two rules in each direction at snapped positions 0 and
99 give a 1 × 1 grid. -/
theorem table_grid_dimensions_witness :
    (extractTableFromRegion defaultTableExtractor sampleRegion Objects.empty).Rows.length =
      sampleRegion.HLines.length - 1 ∧
    ∀ row ∈ (extractTableFromRegion defaultTableExtractor sampleRegion Objects.empty).Rows,
      row.length = sampleRegion.VLines.length - 1 :=
  table_grid_dimensions defaultTableExtractor [hRule 0, hRule 99] [vRule 0, vRule 99]
    sampleRegion Objects.empty (by decide)

end PdfPlumber
